import Mathlib

/-!
# Verification of the cargo-hitch simulation core

A shallow embedding, in Lean 4, of the discrete-event simulation engine and
matching subsystem of the cargo-hitch repository (`sim/engine.py`,
`sim/events.py`, `sim/entities.py`, `sim/matcher/greedy.py`,
`sim/matcher/filters.py`, `sim/policies/pricing.py`, `sim/kpi.py`,
`sim/config.py`), together with theorems settling the behavioural claims
about it.

Modelling conventions:

* Python `float` arithmetic is modelled exactly over `ℚ`.  All numeric
  constants of `config.py` are decimal and embed exactly.
* `datetime` values are modelled as rational minutes since midnight of the
  simulation day (2024-01-01); `timedelta(minutes = m)` is addition of `m`.
  `SIMULATION_START_TIME` (8:00) is minute 480 and `SIMULATION_END_TIME`
  (20:00) is minute 1200.
* The Haversine great-circle distance (`config.calculate_distance` and the
  two identical copies in `greedy.py`) uses floating-point trigonometry and
  cannot be embedded exactly; every definition that calls it is therefore
  parameterised by an arbitrary distance function `Dist`.  Theorems that
  hold for every `Dist` hold in particular for the Haversine one;
  counterexamples instantiate `Dist` with concrete functions that agree
  with Haversine on the coordinates used (Haversine of two equal points is
  exactly 0, and any positive distance is realised by some pair of points).
* Python `dict`s keyed by id strings are modelled as functions
  `Nat → Option _` (ids as naturals); Python `set`s of ids as duplicate-free
  `List Nat` with membership-guarded insert and `List.erase` for removal.
* Exceptions that the Python code can raise while applying an event
  (`KeyError` from an unguarded dict lookup or `set.remove`,
  `ZeroDivisionError`, and the `AttributeError` raised by the
  `datetime.timedelta` references in `filters.py`, where `datetime` is the
  *class* imported by `from datetime import datetime`) are modelled with
  `Except`: an event application returns either the new state or the
  partially mutated state at the point the exception was raised, and a run
  stops at the first exception, exactly as the un-guarded Python event loop
  in `run_simulation` would.
-/

namespace CargoHitch

/-- Geographic coordinate `(lat, lng)`, exactly as the pairs of floats the
Python code passes around. -/
abbrev Coord : Type := ℚ × ℚ

/-- A distance function standing for `config.calculate_distance` (Haversine);
see the module docstring for why it is a parameter. -/
abbrev Dist : Type := Coord → Coord → ℚ

/-- `entities.ParcelSize`. -/
inductive ParcelSize
  | XS | S | M | L | XL
deriving DecidableEq, Repr

/-- `entities.ServiceLevel`. -/
inductive ServiceLevel
  | sameDay | nextDay | flex
deriving DecidableEq, Repr

/-- `entities.OrderStatus`. -/
inductive OrderStatus
  | published | accepted | delivered | expired | cancelled
deriving DecidableEq, Repr

/-- The `driver_type` strings used by the generators in `engine.py`
("metro", "yango", "shahzore", "general"). -/
inductive DriverType
  | metro | yango | shahzore | general
deriving DecidableEq, Repr

/-- The two pricing-model strings; `calculate_order_price` compares against
"fixed" and treats every other string as dynamic. -/
inductive PricingModel
  | fixed | dynamic
deriving DecidableEq, Repr

/-- The two wage-model strings; `calculate_driver_wage` compares against
"fixed" and treats every other string as dynamic. -/
inductive WageModel
  | fixed | dynamic
deriving DecidableEq, Repr

/-- The four time-slot strings returned by `config.get_time_slot`. -/
inductive TimeSlot
  | morning | midday | evening | night
deriving DecidableEq, Repr

/-- `entities.Order` (dataclass).  Fields that no modelled code path reads
(`created_at` is kept; `parcel_size_class`, `service_level` feed pricing;
the rest drive matching and the event machine). -/
structure Order where
  order_id : Nat
  created_at : ℚ := 0
  pickup_lat : ℚ := 0
  pickup_lng : ℚ := 0
  drop_lat : ℚ := 0
  drop_lng : ℚ := 0
  time_window_start : ℚ := 0
  time_window_end : ℚ := 0
  latest_departure : ℚ := 0
  parcel_volume_l : ℚ := 0
  parcel_weight_kg : ℚ := 0
  parcel_size_class : ParcelSize := .M
  service_level : ServiceLevel := .sameDay
  base_price : ℚ := 0
  status : OrderStatus := .published
  assigned_driver_id : Option Nat := none
  accepted_at : Option ℚ := none
  pickup_time : Option ℚ := none
  delivered_at : Option ℚ := none
deriving DecidableEq, Repr

/-- `entities.Driver` (dataclass).  `home_base_*`, `vehicle_type` and
`wage_expectation_per_km` are stored by the source but never read by any
code path that a claim touches, and are omitted; defaults follow the
dataclass defaults.  Note that `max_detour_km` is a field of the source
dataclass that no matcher code ever reads. -/
structure Driver where
  driver_id : Nat
  current_lat : ℚ := 0
  current_lng : ℚ := 0
  available_from : ℚ := 0
  available_to : ℚ := 0
  capacity_volume_l : ℚ := 100
  max_weight_kg : ℚ := 50
  max_detour_km : ℚ := 10
  speed_kmph : ℚ := 30
  acceptance_rate_7d : ℚ := 8/10
  rating : ℚ := 9/2
  current_orders : List Nat := []
  total_earnings : ℚ := 0
  driver_type : DriverType := .general
  max_orders : Nat := 3
deriving DecidableEq, Repr

/-- Driver position as a coordinate pair. -/
def Driver.pos (d : Driver) : Coord := (d.current_lat, d.current_lng)

/-- Order pickup position as a coordinate pair. -/
def Order.pickupPos (o : Order) : Coord := (o.pickup_lat, o.pickup_lng)

/-- Order drop position as a coordinate pair. -/
def Order.dropPos (o : Order) : Coord := (o.drop_lat, o.drop_lng)

/-! ## Configuration constants (`config.py`) -/

/-- `config.SIMULATION_START_TIME` = 2024-01-01 08:00, as minutes. -/
def SIMULATION_START_TIME : ℚ := 480

/-- `config.SIMULATION_END_TIME` = 2024-01-01 20:00, as minutes. -/
def SIMULATION_END_TIME : ℚ := 1200

/-- `config.MAX_DETOUR_KM` (the module-level constant, 50.0 km). -/
def MAX_DETOUR_KM : ℚ := 50

/-- `config.MAX_BUNDLE_SIZE`. -/
def MAX_BUNDLE_SIZE : Nat := 5

/-- `config.COMMISSION_RATE` (0.15). -/
def COMMISSION_RATE : ℚ := 15/100

/-- `config.SIZE_BASE_PRICES` (Rs per km by size class). -/
def SIZE_BASE_PRICES : ParcelSize → ℚ
  | .XS => 5/10
  | .S => 8/10
  | .M => 12/10
  | .L => 18/10
  | .XL => 25/10

/-- `config.SERVICE_LEVEL_FACTORS`. -/
def SERVICE_LEVEL_FACTORS : ServiceLevel → ℚ
  | .sameDay => 12/10
  | .nextDay => 1
  | .flex => 8/10

/-- `config.TIME_SLOT_DISCOUNTS`; `same_day` is absent from the Python dict,
so `calculate_order_price` uses a discount of 0 for it. -/
def TIME_SLOT_DISCOUNTS : ServiceLevel → ℚ
  | .sameDay => 0
  | .nextDay => 1/10
  | .flex => 2/10

/-- `config.SURGE_MULTIPLIERS`. -/
def SURGE_MULTIPLIERS : TimeSlot → ℚ
  | .morning => 13/10
  | .midday => 1
  | .evening => 14/10
  | .night => 8/10

/-- The `.hour` attribute of a datetime modelled as rational minutes:
whole hours, wrapped around the 24-hour day. -/
def pyHour (t : ℚ) : ℤ := ⌊t / 60⌋ % 24

/-- `config.get_time_slot`. -/
def get_time_slot (t : ℚ) : TimeSlot :=
  let h := pyHour t
  if 8 ≤ h ∧ h < 10 then .morning
  else if 10 ≤ h ∧ h < 16 then .midday
  else if 16 ≤ h ∧ h < 20 then .evening
  else .night

/-- `config.get_surge_multiplier`.  The source takes a grid cell computed by
`get_grid_cell` and ignores it ("For now, return base surge"); the grid
cell is therefore a placeholder argument here (`get_grid_cell` itself uses
floating-point trigonometry, but its value never influences behaviour). -/
def get_surge_multiplier (_grid_cell : ℤ × ℤ) (slot : TimeSlot) : ℚ :=
  SURGE_MULTIPLIERS slot

/-! ## Pricing and wage policy (`policies/pricing.py`) -/

/-- `pricing.calculate_order_price`, on the code path where the caller
supplies `base_distance_km` (when it is `None` the source computes the
Haversine pickup→drop distance and continues identically, so the distance
is taken as an argument). -/
def calculate_order_price (o : Order) (current_time : ℚ)
    (pricing_model : PricingModel) (base_distance_km : ℚ) : ℚ :=
  let size_price := SIZE_BASE_PRICES o.parcel_size_class
  let base_price := size_price * base_distance_km
  match pricing_model with
  | .fixed => base_price
  | .dynamic =>
    let time_slot := get_time_slot current_time
    -- the source also computes get_grid_cell(order.pickup_lat, order.pickup_lng);
    -- get_surge_multiplier ignores it, so a placeholder cell is passed here
    let surge_multiplier := get_surge_multiplier (0, 0) time_slot
    let service_factor := SERVICE_LEVEL_FACTORS o.service_level
    let time_discount := TIME_SLOT_DISCOUNTS o.service_level
    let final_price := base_price * surge_multiplier * service_factor * (1 - time_discount)
    max final_price (base_price * (1/2))

/-- `config.WAGE_MODELS["fixed"]["base_per_km"]`. -/
def FIXED_BASE_PER_KM : ℚ := 4/10

/-- `config.WAGE_MODELS["fixed"]["base_per_min"]`. -/
def FIXED_BASE_PER_MIN : ℚ := 2/100

/-- `config.WAGE_MODELS["dynamic"]`. -/
def DYN_BASE_PER_KM : ℚ := 3/10
def DYN_BASE_PER_MIN : ℚ := 15/1000
def DYN_SURGE_MULTIPLIER : ℚ := 12/10
def DYN_RATING_BONUS : ℚ := 1/10

/-- `pricing.calculate_driver_wage`. -/
def calculate_driver_wage (distance_km time_minutes : ℚ)
    (wage_model : WageModel) (driver_rating : ℚ := 9/2)
    (surge_multiplier : ℚ := 1) : ℚ :=
  let wage :=
    match wage_model with
    | .fixed =>
      distance_km * FIXED_BASE_PER_KM + time_minutes * FIXED_BASE_PER_MIN
    | .dynamic =>
      let base_wage := distance_km * DYN_BASE_PER_KM + time_minutes * DYN_BASE_PER_MIN
      let surge_bonus := base_wage * (surge_multiplier - 1) * DYN_SURGE_MULTIPLIER
      let rating_bonus := base_wage * (driver_rating - 4) * DYN_RATING_BONUS
      base_wage + surge_bonus + rating_bonus
  max wage 1

/-- `pricing.calculate_platform_profit` (with the default
`commission_rate=None`, which the source replaces by `COMMISSION_RATE`). -/
def calculate_platform_profit (order_price : ℚ) (_driver_wage : ℚ) : ℚ :=
  let commission_earnings := order_price * COMMISSION_RATE
  commission_earnings

/-! ## KPI order metrics (`kpi.py`) -/

/-- The order-count fields of `kpi.KPIMetrics` (Python ints, modelled as ℤ)
together with the match rate. -/
structure KPIMetrics where
  total_orders : ℤ := 0
  matched_orders : ℤ := 0
  delivered_orders : ℤ := 0
  expired_orders : ℤ := 0
  cancelled_orders : ℤ := 0
  match_rate : ℚ := 0
deriving DecidableEq, Repr

/-- `KPITracker._update_order_metrics`, over the list of orders
(`orders.values()` of the Python dict). -/
def update_order_metrics (orders : List Order) (m : KPIMetrics) : KPIMetrics :=
  let total : ℤ := orders.length
  let matched : ℤ :=
    (orders.filter (fun o => o.status = .accepted ∨ o.status = .delivered)).length
  let delivered : ℤ := (orders.filter (fun o => o.status = .delivered)).length
  let expired : ℤ := (orders.filter (fun o => o.status = .expired)).length
  let cancelled : ℤ := (orders.filter (fun o => o.status = .cancelled)).length
  let m := { m with
    total_orders := total, matched_orders := matched,
    delivered_orders := delivered, expired_orders := expired,
    cancelled_orders := cancelled }
  if 0 < total then
    let m := { m with match_rate := (matched : ℚ) / (total : ℚ) }
    let total_accounted := matched + expired + cancelled
    if total_accounted ≠ total then
      { m with expired_orders := total - total_accounted + expired }
    else m
  else m

/-! ## Feasibility filter (`matcher/filters.py`)

`filters.py` begins with `from datetime import datetime`, so inside this
module the name `datetime` is the *class* `datetime.datetime`, and the
expressions `datetime.timedelta(...)` at lines 87, 101 and 148 raise
`AttributeError` the moment they are evaluated.  The checks that reach them
are embedded in `Except`, erroring exactly where the Python does. -/

/-- The Python exceptions the embedded code can raise. -/
inductive PyError
  | attributeError
  | zeroDivisionError
  | keyError
deriving DecidableEq, Repr

/-- Python division: raises `ZeroDivisionError` on a zero divisor. -/
def pyDiv (a b : ℚ) : Except PyError ℚ :=
  if b = 0 then .error .zeroDivisionError else .ok (a / b)

/-- `Driver.can_accept_order` (`entities.py`): capacity and headroom. -/
def Driver.can_accept_order (d : Driver) (o : Order) : Bool :=
  if o.parcel_volume_l > d.capacity_volume_l ∨ o.parcel_weight_kg > d.max_weight_kg then
    false
  else if d.current_orders.length ≥ d.max_orders then
    false
  else
    true

/-- `filters.check_time_window_feasibility`.  The source computes the
pickup distance and `time_to_pickup_minutes`, then evaluates
`current_time + datetime.timedelta(minutes=time_to_pickup_minutes)` —
which raises `AttributeError`, because `datetime` here is the class, not
the module.  Everything after that line is unreachable. -/
def check_time_window_feasibility (dist : Dist) (o : Order) (d : Driver)
    (_current_time : ℚ) : Except PyError Bool := do
  let pickup_distance := dist d.pos o.pickupPos
  let _time_to_pickup_minutes ← (do
    let q ← pyDiv pickup_distance d.speed_kmph
    pure (q * 60))
  -- pickup_arrival_time = current_time + datetime.timedelta(...): AttributeError
  Except.error .attributeError

/-- `filters.check_detour_feasibility` (pure: it only adds and compares
distances, no `timedelta`). -/
def check_detour_feasibility (dist : Dist) (o : Order) (d : Driver) : Bool :=
  let direct_distance := dist o.pickupPos o.dropPos
  let driver_to_pickup := dist d.pos o.pickupPos
  let pickup_to_drop := dist o.pickupPos o.dropPos
  let actual_distance := driver_to_pickup + pickup_to_drop
  let detour := actual_distance - direct_distance
  decide (detour ≤ MAX_DETOUR_KM)

/-- `filters.check_pickup_reachability`.  Like the time-window check it
reaches `datetime.timedelta` (line 148) and raises `AttributeError`. -/
def check_pickup_reachability (dist : Dist) (o : Order) (d : Driver)
    (_current_time : ℚ) : Except PyError Bool := do
  let pickup_distance := dist d.pos o.pickupPos
  let _time_to_pickup_minutes ← (do
    let q ← pyDiv pickup_distance d.speed_kmph
    pure (q * 60))
  -- pickup_arrival_time = current_time + datetime.timedelta(...): AttributeError
  Except.error .attributeError

/-- `filters.is_feasible_match`: capacity, then time window, then detour,
then reachability, short-circuiting on the first failure. -/
def is_feasible_match (dist : Dist) (o : Order) (d : Driver)
    (current_time : ℚ) : Except PyError Bool := do
  if ¬ d.can_accept_order o then
    return false
  let tw ← check_time_window_feasibility dist o d current_time
  if ¬ tw then
    return false
  if ¬ check_detour_feasibility dist o d then
    return false
  let r ← check_pickup_reachability dist o d current_time
  if ¬ r then
    return false
  return true

/-! ## Greedy matching (`matcher/greedy.py`)

The engine's `trigger_matching` always calls `greedy_matching(...,
allow_bundling=True)`, which dispatches to
`greedy_matching_with_bundling`; only that branch is embedded
(`greedy_matching_single` would call `filter_feasible_matches`, whose
`is_feasible_match` raises as shown above, and is unreachable from the
engine).  The bundling path performs no mutation of orders or drivers and
raises no exception for a nonnegative distance function (the only division
with a possibly-zero divisor is `len/(1+avg_distance)`, which Python could
only hit with a negative distance; the embedding uses total division,
where `q / 0 = 0`). -/

/-- Python `int(float)`: truncation toward zero. -/
def pyTrunc (q : ℚ) : ℤ := if 0 ≤ q then ⌊q⌋ else ⌈q⌉

/-- The `get_delivery_area` closure in `greedy_matching_yango_bus_stop_pickup`:
`int(coord * 100) // 10` for each coordinate (Python `//` is floor
division).  The source formats the two numbers into a string key; the pair
itself is kept here, which keys identically. -/
def get_delivery_area (o : Order) : ℤ × ℤ :=
  (Int.fdiv (pyTrunc (o.drop_lat * 100)) 10, Int.fdiv (pyTrunc (o.drop_lng * 100)) 10)

/-- Order groups: a Python dict keyed by delivery area, in insertion order. -/
abbrev OrderGroups : Type := List ((ℤ × ℤ) × List Order)

/-- Insert an order into its area group (append to the existing group, or
append a new singleton group, matching dict insertion-order semantics). -/
def addToGroups (gs : OrderGroups) (a : ℤ × ℤ) (o : Order) : OrderGroups :=
  if gs.any (fun p => p.1 = a) then
    gs.map (fun p => if p.1 = a then (p.1, p.2 ++ [o]) else p)
  else
    gs ++ [(a, [o])]

/-- The group-building loop over `orders`. -/
def buildOrderGroups (orders : List Order) : OrderGroups :=
  orders.foldl (fun gs o => addToGroups gs (get_delivery_area o) o) []

/-- Accumulator shared by both matching passes: the growing assignment list
and the `assigned_orders` / `assigned_drivers` id sets. -/
structure MatchAcc where
  assignments : List (Order × Driver) := []
  assigned_orders : List Nat := []
  assigned_drivers : List Nat := []

/-- One iteration of the `valid_orders` loop of the Yango pass: skip
orders already assigned, keep those passing `can_accept_order` and add
their driver→drop distance to `total_distance`. -/
def yangoValidStep (dist : Dist) (assigned_orders : List Nat) (driver : Driver)
    (acc : List Order × ℚ) (o : Order) : List Order × ℚ :=
  if o.order_id ∈ assigned_orders then acc
  else if driver.can_accept_order o then
    (acc.1 ++ [o], acc.2 + dist driver.pos o.dropPos)
  else acc

/-- The orders of one area group a given driver can take
(`valid_orders`), alongside their summed driver→drop distance
(`total_distance`). -/
def yangoValidOrders (dist : Dist) (assigned_orders : List Nat) (driver : Driver)
    (area_orders : List Order) : List Order × ℚ :=
  area_orders.foldl (yangoValidStep dist assigned_orders driver) ([], 0)

/-- Best-group selection state for one Yango driver (`best_area`,
`best_orders`, `best_score`, initially `None`/`[]`/`0`). -/
structure BestSel where
  best_area : Option (ℤ × ℤ) := none
  best_orders : List Order := []
  best_score : ℚ := 0

/-- One step of the best-group loop: score a group as
`len(valid) / (1 + avg_distance)` and keep it if strictly better. -/
def yangoBestStep (dist : Dist) (assigned_orders : List Nat) (driver : Driver)
    (sel : BestSel) (g : (ℤ × ℤ) × List Order) : BestSel :=
  if g.2 = [] then sel
  else
    let va := yangoValidOrders dist assigned_orders driver g.2
    if va.1 = [] then sel
    else
      let avg_distance := va.2 / (va.1.length : ℚ)
      let score := (va.1.length : ℚ) / (1 + avg_distance)
      if score > sel.best_score then
        { best_area := some g.1, best_orders := va.1, best_score := score }
      else sel

/-- Conditionally remove the first occurrence of `o` from group `a`
(`if order in order_groups[best_area]: ....remove(order)`). -/
def removeFromGroup (gs : OrderGroups) (a : ℤ × ℤ) (o : Order) : OrderGroups :=
  gs.map (fun p => if p.1 = a ∧ o ∈ p.2 then (p.1, p.2.erase o) else p)

/-- Assigning one order of `orders_to_assign` to a Yango driver. -/
def yangoAssignStep (driver : Driver) (bestArea : ℤ × ℤ)
    (st : MatchAcc × OrderGroups) (o : Order) : MatchAcc × OrderGroups :=
  if o.order_id ∈ st.1.assigned_orders then st
  else
    ({ st.1 with
        assignments := st.1.assignments ++ [(o, driver)],
        assigned_orders := st.1.assigned_orders ++ [o.order_id] },
      removeFromGroup st.2 bestArea o)

/-- The body of the Yango driver loop for one driver. -/
def yangoDriverStep (dist : Dist) (st : MatchAcc × OrderGroups)
    (driver : Driver) : MatchAcc × OrderGroups :=
  if driver.driver_id ∈ st.1.assigned_drivers then st
  else
    let sel := st.2.foldl (yangoBestStep dist st.1.assigned_orders driver) {}
    if sel.best_orders = [] then st
    else
      match sel.best_area with
      | none => st  -- unreachable: best_area and best_orders are set together
      | some a =>
        let orders_to_assign :=
          sel.best_orders.take (min driver.max_orders sel.best_orders.length)
        let st := orders_to_assign.foldl (yangoAssignStep driver a) st
        ({ st.1 with assigned_drivers := st.1.assigned_drivers ++ [driver.driver_id] },
          st.2)

/-- `greedy.greedy_matching_yango_bus_stop_pickup`. -/
def greedy_matching_yango_bus_stop_pickup (dist : Dist) (orders : List Order)
    (drivers : List Driver) (_current_time : ℚ) : List (Order × Driver) :=
  let yango_drivers := drivers.filter (fun d => d.driver_type = .yango)
  let order_groups := buildOrderGroups orders
  (yango_drivers.foldl (yangoDriverStep dist) ({}, order_groups)).1.assignments

/-- The driver-priority factor of the fallback pass ("Prefer Yango drivers
for better coverage"; lower adjusted score = higher priority). -/
def driver_priority (d : Driver) : ℚ :=
  match d.driver_type with
  | .yango => 1/2
  | .metro => 8/10
  | _ => 1

/-- One iteration of the best-driver loop of the fallback pass: skip
consumed drivers, compute `distance * priority` for those passing
`can_accept_order`, keep the strictly smaller score. -/
def fallbackBestStep (dist : Dist) (assigned_drivers : List Nat) (o : Order)
    (best : Option (Driver × ℚ)) (d : Driver) : Option (Driver × ℚ) :=
  if d.driver_id ∈ assigned_drivers then best
  else if d.can_accept_order o then
    let distance := dist d.pos o.pickupPos
    let adjusted_score := distance * driver_priority d
    match best with
    | none => some (d, adjusted_score)
    | some pb => if adjusted_score < pb.2 then some (d, adjusted_score) else best
  else best

/-- Best driver for one leftover order: minimal `distance * priority` over
the not-yet-consumed drivers passing `can_accept_order`; `best_score`
starts at `float('inf')`, modelled by `none`. -/
def fallbackBestDriver (dist : Dist) (assigned_drivers : List Nat)
    (remaining_drivers : List Driver) (o : Order) : Option Driver :=
  (remaining_drivers.foldl (fallbackBestStep dist assigned_drivers o) none).map Prod.fst

/-- The per-order body of the fallback loop in
`greedy_matching_with_bundling`. -/
def fallbackStep (dist : Dist) (remaining_drivers : List Driver)
    (acc : MatchAcc) (o : Order) : MatchAcc :=
  if o.order_id ∈ acc.assigned_orders then acc
  else
    match fallbackBestDriver dist acc.assigned_drivers remaining_drivers o with
    | none => acc
    | some best_driver =>
      { assignments := acc.assignments ++ [(o, best_driver)],
        assigned_orders := acc.assigned_orders ++ [o.order_id],
        assigned_drivers := acc.assigned_drivers ++ [best_driver.driver_id] }

/-- `greedy.greedy_matching_with_bundling`: the Yango bus-stop pass, then
the "more aggressive" nearest-driver pass over the leftovers.  Note that
neither pass consults `is_feasible_match`: the only feasibility test is
`driver.can_accept_order(order)`. -/
def greedy_matching_with_bundling (dist : Dist) (orders : List Order)
    (drivers : List Driver) (current_time : ℚ) : List (Order × Driver) :=
  let yango_assignments :=
    greedy_matching_yango_bus_stop_pickup dist orders drivers current_time
  let assigned_orders := yango_assignments.map (fun p => p.1.order_id)
  let assigned_drivers := yango_assignments.map (fun p => p.2.driver_id)
  let remaining_orders := orders.filter (fun o => o.order_id ∉ assigned_orders)
  let remaining_drivers := drivers.filter (fun d => d.driver_id ∉ assigned_drivers)
  if remaining_orders = [] ∨ remaining_drivers = [] then yango_assignments
  else
    (remaining_orders.foldl (fallbackStep dist remaining_drivers)
      { assignments := yango_assignments,
        assigned_orders := assigned_orders,
        assigned_drivers := assigned_drivers }).assignments

/-- `greedy.greedy_matching`.  The engine always passes
`allow_bundling=True`; the `False` branch (`greedy_matching_single`) is not
reachable from the engine and is not embedded. -/
def greedy_matching (dist : Dist) (orders : List Order) (drivers : List Driver)
    (current_time : ℚ) : List (Order × Driver) :=
  greedy_matching_with_bundling dist orders drivers current_time

/-! ## Events and the simulation state machine (`events.py`, `engine.py`) -/

/-- The typed payload of `events.OrderArrival.order_data`.  Fields whose
`dict.get` default is the event timestamp are `Option` (absent = `none`);
fields with constant defaults are plain (supplying the default equals
omitting the key). -/
structure OrderData where
  pickup_lat : ℚ := 0
  pickup_lng : ℚ := 0
  drop_lat : ℚ := 0
  drop_lng : ℚ := 0
  time_window_start : Option ℚ := none
  time_window_end : Option ℚ := none
  latest_departure : Option ℚ := none
  parcel_volume_l : ℚ := 0
  parcel_weight_kg : ℚ := 0
  parcel_size_class : ParcelSize := .M
  service_level : ServiceLevel := .sameDay
  base_price : ℚ := 0
deriving DecidableEq, Repr

/-- The typed payload of `events.DriverArrival.driver_data`.  Fields the
source never reads later (home base, vehicle type, wage expectation) are
omitted; `DriverArrival.apply` does not set `max_orders` or `driver_type`,
so new drivers get the dataclass defaults (3, "general"). -/
structure DriverData where
  current_lat : ℚ := 0
  current_lng : ℚ := 0
  available_to : Option ℚ := none
  capacity_volume_l : ℚ := 100
  max_weight_kg : ℚ := 50
  max_detour_km : ℚ := 10
  speed_kmph : ℚ := 30
  acceptance_rate_7d : ℚ := 8/10
  rating : ℚ := 9/2
deriving DecidableEq, Repr

/-- The `entity_type` strings of `events.Cancellation` that do anything;
any other string makes `apply` a no-op and is not modelled. -/
inductive EntityType
  | order | driver
deriving DecidableEq, Repr

/-- The simulation events (`events.py`), with their timestamps and typed
payloads. -/
inductive Event
  | orderArrival (timestamp : ℚ) (order_id : Nat) (data : OrderData)
  | driverArrival (timestamp : ℚ) (driver_id : Nat) (data : DriverData)
  | tick (timestamp : ℚ) (tick_number : Nat)
  | cancellation (timestamp : ℚ) (entity_id : Nat) (entity_type : EntityType)
  | deliveryComplete (timestamp : ℚ) (order_id : Nat) (driver_id : Nat)
      (delivery_time : ℚ) (actual_distance_km : ℚ) (actual_time_minutes : ℚ)
  | orderPickup (timestamp : ℚ) (order_id : Nat) (driver_id : Nat) (pickup_time : ℚ)
deriving DecidableEq, Repr

/-- The timestamp of an event. -/
def Event.timestamp : Event → ℚ
  | .orderArrival t _ _ => t
  | .driverArrival t _ _ => t
  | .tick t _ => t
  | .cancellation t _ _ => t
  | .deliveryComplete t _ _ _ _ _ => t
  | .orderPickup t _ _ _ => t

/-- `engine.SimulationState`: the order/driver dicts (functions from ids),
the three id sets, the clock, the delivery statistics, the business knobs
(note `max_detour_km` is stored here by `__init__`/`setup_simulation` and
never read by any matching code), and the event queue. -/
structure SimState where
  orders : Nat → Option Order
  drivers : Nat → Option Driver
  unassigned_orders : List Nat := []
  assigned_orders : List Nat := []
  available_drivers : List Nat := []
  current_time : ℚ := SIMULATION_START_TIME
  completed_deliveries : Nat := 0
  total_delivery_distance : ℚ := 0
  total_delivery_time : ℚ := 0
  pricing_model : PricingModel := .dynamic
  wage_model : WageModel := .dynamic
  max_detour_km : ℚ := MAX_DETOUR_KM
  event_queue : List Event := []

/-- Python `set.add`. -/
def setInsert (l : List Nat) (i : Nat) : List Nat := if i ∈ l then l else l ++ [i]

/-- Update the value at a dict key, if present (mutating the object the
Python dict maps the key to). -/
def updFun (f : Nat → Option α) (i : Nat) (g : α → α) : Nat → Option α :=
  fun j => if j = i then (f j).map g else f j

/-- Dict assignment `f[i] = v`. -/
def setFun (f : Nat → Option α) (i : Nat) (v : α) : Nat → Option α :=
  fun j => if j = i then some v else f j

/-- `_schedule_event`: append the event and re-sort the queue by timestamp
(Python's stable `list.sort`; insertion sort is likewise stable). -/
def schedule_event (q : List Event) (e : Event) : List Event :=
  (q ++ [e]).insertionSort (fun a b => a.timestamp ≤ b.timestamp)

/-- `SimulationState._schedule_delivery_completion`, up to the two events it
creates: travel times from the driver's (mutated) position, the total
clipped to `max_delivery_time = 30` minutes, the completion time clamped to
`current_time + 5` minutes when it would pass `SIMULATION_END_TIME`, and an
`ORDER_PICKUP` at `current_time + time_to_pickup` with no clipping and no
horizon check.  A zero driver speed raises `ZeroDivisionError`. -/
def scheduleDeliveryCompletionEvents (dist : Dist) (now : ℚ) (o : Order)
    (d : Driver) : Except PyError (Event × Event) := do
  let pickup_distance := dist d.pos o.pickupPos
  let delivery_distance := dist o.pickupPos o.dropPos
  let time_to_pickup ← (do
    let q ← pyDiv pickup_distance d.speed_kmph
    pure (q * 60))
  let delivery_time ← (do
    let q ← pyDiv delivery_distance d.speed_kmph
    pure (q * 60))
  let max_delivery_time : ℚ := 30
  let total_time := min (time_to_pickup + delivery_time) max_delivery_time
  let completion_time0 := now + total_time
  let completion_time :=
    if completion_time0 > SIMULATION_END_TIME then now + 5 else completion_time0
  let dc := Event.deliveryComplete completion_time o.order_id d.driver_id
    completion_time (pickup_distance + delivery_distance) total_time
  let pickup_time := now + time_to_pickup
  let pu := Event.orderPickup pickup_time o.order_id d.driver_id pickup_time
  pure (dc, pu)

/-- One iteration of the assignment-processing loop of
`SimulationState.trigger_matching`: guard on both id sets, then
`order.accept`, `driver.accept_order`, set updates, removal of a
full driver from the available pool, and scheduling of the two follow-up
events.  An exception inside `_schedule_delivery_completion` propagates
with the state mutated so far. -/
def processAssignment (dist : Dist) (s : SimState) (o : Order) (d : Driver) :
    Except SimState SimState :=
  if o.order_id ∈ s.unassigned_orders ∧ d.driver_id ∈ s.available_drivers then
    match s.orders o.order_id, s.drivers d.driver_id with
    | some oo, some dd =>
      -- order.accept(driver.driver_id, self.current_time): the order object
      -- is the one the dict maps the id to
      let oo2 := { oo with status := .accepted, assigned_driver_id := some d.driver_id,
                           accepted_at := some s.current_time }
      -- driver.accept_order(order.order_id)
      let dd2 := { dd with current_orders := dd.current_orders ++ [o.order_id] }
      let s3 := { s with
        orders := setFun s.orders o.order_id oo2,
        drivers := setFun s.drivers d.driver_id dd2,
        unassigned_orders := s.unassigned_orders.erase o.order_id,
        assigned_orders := setInsert s.assigned_orders o.order_id }
      -- if len(driver.current_orders) >= driver._get_max_orders(): remove
      let s4 := if dd2.current_orders.length ≥ dd2.max_orders
        then { s3 with available_drivers := s3.available_drivers.erase d.driver_id }
        else s3
      -- self._schedule_delivery_completion(order, driver): reads the mutated objects
      match scheduleDeliveryCompletionEvents dist s4.current_time oo2 dd2 with
      | .error _ => .error s4
      | .ok (dc, pu) =>
        .ok { s4 with event_queue := schedule_event (schedule_event s4.event_queue dc) pu }
    | _, _ => .ok s  -- unreachable: Python mutates the aliased objects, which exist
  else .ok s

/-- The list comprehensions `[self.orders[oid] for oid in ...]` /
`[self.drivers[did] for did in ...]`: a missing key raises `KeyError`
before any mutation. -/
def lookupMany (f : Nat → Option α) (ids : List Nat) (s : SimState) :
    Except SimState (List α) :=
  ids.foldrM (fun i acc => match f i with
    | none => .error s
    | some a => .ok (a :: acc)) []

/-- `SimulationState.trigger_matching`. -/
def trigger_matching (dist : Dist) (s : SimState) : Except SimState SimState := do
  if s.unassigned_orders = [] ∨ s.available_drivers = [] then
    return s
  let available_orders ← lookupMany s.orders s.unassigned_orders s
  let available_drivers ← lookupMany s.drivers s.available_drivers s
  let assignments := greedy_matching dist available_orders available_drivers s.current_time
  assignments.foldlM (fun st p => processAssignment dist st p.1 p.2) s

/-- One iteration of the expiry loop in `events.Tick.apply`:
`orders[order_id]` (a `KeyError` if absent), expire and drop from the
unassigned pool when `latest_departure` has passed. -/
def expireStep (t : ℚ) (s : SimState) (oid : Nat) : Except SimState SimState :=
  match s.orders oid with
  | none => .error s
  | some o =>
    if t > o.latest_departure then
      .ok { s with
        orders := updFun s.orders oid (fun oo => { oo with status := .expired }),
        unassigned_orders := s.unassigned_orders.erase oid }
    else .ok s

/-- `events.Tick.apply`: expiry over a snapshot of the unassigned set, then
up to two guarded matching rounds.  The fleet-dispatch, KPI and logging
calls hit the `pass`-bodied methods of `SimulationState` and are no-ops. -/
def tickApply (dist : Dist) (t : ℚ) (s : SimState) : Except SimState SimState :=
  s.unassigned_orders.foldlM (expireStep t) s >>= fun s1 =>
    (if s1.unassigned_orders ≠ [] ∧ s1.available_drivers ≠ [] then
        trigger_matching dist s1
      else pure s1) >>= fun s2 =>
      if s2.unassigned_orders ≠ [] ∧ s2.available_drivers ≠ [] then
        trigger_matching dist s2
      else pure s2

/-- `events.Cancellation.apply`, `entity_type == 'order'`:
`order.cancel(reason)` sets CANCELLED unconditionally, then both id sets
are purged (guarded, so no exception). -/
def cancellationOrderApply (s : SimState) (i : Nat) : SimState :=
  match s.orders i with
  | none => s
  | some _ =>
    let s := { s with orders := updFun s.orders i (fun o => { o with status := .cancelled }) }
    let s := if i ∈ s.unassigned_orders
      then { s with unassigned_orders := s.unassigned_orders.erase i } else s
    if i ∈ s.assigned_orders
      then { s with assigned_orders := s.assigned_orders.erase i } else s

/-- One iteration of the order loop in the `entity_type == 'driver'` branch
of `Cancellation.apply`: the `orders[order_id]` lookup and the *unguarded*
`assigned_orders.remove(order_id)` each raise `KeyError`, after the order
id has already been put back into the unassigned pool. -/
def cancelDriverOrderStep (s : SimState) (oid : Nat) : Except SimState SimState :=
  match s.orders oid with
  | none => .error s
  | some _ =>
    let s := { s with unassigned_orders := setInsert s.unassigned_orders oid }
    if oid ∈ s.assigned_orders then
      .ok { s with assigned_orders := s.assigned_orders.erase oid }
    else .error s

/-- `events.Cancellation.apply`, `entity_type == 'driver'`.  Note the
driver's `current_orders` list is *not* cleared. -/
def cancellationDriverApply (s : SimState) (i : Nat) : Except SimState SimState :=
  match s.drivers i with
  | none => .ok s
  | some d =>
    let s := if i ∈ s.available_drivers
      then { s with available_drivers := s.available_drivers.erase i } else s
    d.current_orders.foldlM cancelDriverOrderStep s

/-- `events.DeliveryComplete.apply`: `order.deliver` (unconditional), then
the *unguarded* `drivers[driver_id].rating` lookup for the wage, then
`complete_order`, re-availability of an empty driver, guarded removal from
the assigned set, and the delivery statistics. -/
def deliveryCompleteApply (s : SimState) (oid did : Nat)
    (delivery_time actual_distance_km actual_time_minutes : ℚ) :
    Except SimState SimState :=
  match s.orders oid with
  | none => .ok s
  | some _ =>
    let s := { s with orders := updFun s.orders oid (fun o =>
      { o with status := .delivered, delivered_at := some delivery_time }) }
    match s.drivers did with
    | none => .error s
    | some d =>
      let earnings := calculate_driver_wage actual_distance_km actual_time_minutes
        s.wage_model d.rating
      -- driver.complete_order(order_id, earnings)
      let d2 := if oid ∈ d.current_orders
        then { d with current_orders := d.current_orders.erase oid,
                      total_earnings := d.total_earnings + earnings }
        else d
      let s := { s with drivers := setFun s.drivers did d2 }
      let s := if d2.current_orders = []
        then { s with available_drivers := setInsert s.available_drivers did } else s
      let s := if oid ∈ s.assigned_orders
        then { s with assigned_orders := s.assigned_orders.erase oid } else s
      .ok { s with
        completed_deliveries := s.completed_deliveries + 1,
        total_delivery_distance := s.total_delivery_distance + actual_distance_km,
        total_delivery_time := s.total_delivery_time + actual_time_minutes }

/-- `events.OrderPickup.apply`: record the pickup time and move the driver
to the pickup location (both guarded lookups). -/
def orderPickupApply (s : SimState) (oid did : Nat) (pickup_time : ℚ) : SimState :=
  match s.orders oid with
  | none => s
  | some o =>
    let s := { s with orders := updFun s.orders oid (fun oo =>
      { oo with pickup_time := some pickup_time }) }
    match s.drivers did with
    | none => s
    | some _ => { s with drivers := updFun s.drivers did (fun d =>
        { d with current_lat := o.pickup_lat, current_lng := o.pickup_lng }) }

/-- The `Order` built by `events.OrderArrival.apply` from its payload. -/
def orderFromData (t : ℚ) (oid : Nat) (data : OrderData) : Order :=
  { order_id := oid, created_at := t,
    pickup_lat := data.pickup_lat, pickup_lng := data.pickup_lng,
    drop_lat := data.drop_lat, drop_lng := data.drop_lng,
    time_window_start := data.time_window_start.getD t,
    time_window_end := data.time_window_end.getD t,
    latest_departure := data.latest_departure.getD t,
    parcel_volume_l := data.parcel_volume_l,
    parcel_weight_kg := data.parcel_weight_kg,
    parcel_size_class := data.parcel_size_class,
    service_level := data.service_level,
    base_price := data.base_price }

/-- `events.OrderArrival.apply`: build the order, apply the surge
multiplier to `base_price` in dynamic pricing mode, store it and mark it
unassigned. -/
def orderArrivalApply (s : SimState) (t : ℚ) (oid : Nat) (data : OrderData) :
    SimState :=
  let o := orderFromData t oid data
  let o := if s.pricing_model = .dynamic then
      -- get_grid_cell's value is ignored by get_surge_multiplier
      { o with base_price := o.base_price * get_surge_multiplier (0, 0) (get_time_slot t) }
    else o
  { s with orders := setFun s.orders oid o,
           unassigned_orders := setInsert s.unassigned_orders oid }

/-- The `Driver` built by `events.DriverArrival.apply`: note `max_orders`
and `driver_type` are left at the dataclass defaults (3, "general"). -/
def driverFromData (t : ℚ) (did : Nat) (data : DriverData) : Driver :=
  { driver_id := did,
    current_lat := data.current_lat, current_lng := data.current_lng,
    available_from := t, available_to := data.available_to.getD t,
    capacity_volume_l := data.capacity_volume_l,
    max_weight_kg := data.max_weight_kg,
    max_detour_km := data.max_detour_km,
    speed_kmph := data.speed_kmph,
    acceptance_rate_7d := data.acceptance_rate_7d,
    rating := data.rating }

/-- `events.DriverArrival.apply`. -/
def driverArrivalApply (s : SimState) (t : ℚ) (did : Nat) (data : DriverData) :
    SimState :=
  { s with drivers := setFun s.drivers did (driverFromData t did data),
           available_drivers := setInsert s.available_drivers did }

/-- Dispatch an event to its `apply` (`Except`: the error value is the
partially mutated state at the Python exception). -/
def applyEvent (dist : Dist) (e : Event) (s : SimState) : Except SimState SimState :=
  match e with
  | .orderArrival t oid data => .ok (orderArrivalApply s t oid data)
  | .driverArrival t did data => .ok (driverArrivalApply s t did data)
  | .tick t _ => tickApply dist t s
  | .cancellation _ i .order => .ok (cancellationOrderApply s i)
  | .cancellation _ i .driver => cancellationDriverApply s i
  | .deliveryComplete _ oid did dt dk tm => deliveryCompleteApply s oid did dt dk tm
  | .orderPickup _ oid did pt => .ok (orderPickupApply s oid did pt)

/-- The state an event application leaves behind, exception or not. -/
def exceptState : Except SimState SimState → SimState
  | .ok s => s
  | .error s => s

/-- The event loop of `run_simulation` over a given list of events: advance
the clock to the event's timestamp, apply it, and stop at the first
uncaught exception (which in Python aborts the whole run).  `runEvents evs`
is the state after processing the prefix `evs` of the queue. -/
def runEvents (dist : Dist) (s : SimState) : List Event → SimState
  | [] => s
  | e :: evs =>
    match applyEvent dist e { s with current_time := e.timestamp } with
    | .ok s2 => runEvents dist s2 evs
    | .error s2 => s2

/-- What `CargoHitchhikingSimulation.setup_simulation` guarantees about the
initial state: the available pool is a set (no duplicate ids), and every
generated driver starts with an empty `current_orders` list and a positive
`max_orders` (the generators use 3, 12 and 2).  Orders are arbitrary. -/
def InitOk (s : SimState) : Prop :=
  s.available_drivers.Nodup ∧
    ∀ i d, s.drivers i = some d → d.current_orders = [] ∧ 1 ≤ d.max_orders

/-- The capacity invariant of the claim:
`len(driver.current_orders) <= driver.max_orders` for every driver. -/
def capacityInv (s : SimState) : Prop :=
  ∀ i d, s.drivers i = some d → d.current_orders.length ≤ d.max_orders

/-- The inductive strengthening: capacity, positive `max_orders`, and
strict headroom for every driver in the available pool. -/
def driversInv (s : SimState) : Prop :=
  ∀ i d, s.drivers i = some d →
    d.current_orders.length ≤ d.max_orders ∧ 1 ≤ d.max_orders ∧
      (i ∈ s.available_drivers → d.current_orders.length < d.max_orders)

/-- The full inductive invariant: the available pool is duplicate-free and
`driversInv` holds. -/
def SimInv (s : SimState) : Prop :=
  s.available_drivers.Nodup ∧ driversInv s

/-- Terminal order statuses. -/
def OrderStatus.isTerminal : OrderStatus → Bool
  | .delivered => true
  | .expired => true
  | .cancelled => true
  | _ => false

/-- The status of the order at id `i`, if any. -/
def statusAt (s : SimState) (i : Nat) : Option OrderStatus :=
  (s.orders i).map Order.status

/-- The event kinds that can change the status of the order at id `i`
in state `s`: an order-cancellation for `i`, a delivery completion for
`i`, an order arrival replacing `i`, or a tick while `i` sits in the
unassigned pool. -/
def eventTouchesOrderStatus (e : Event) (s : SimState) (i : Nat) : Prop :=
  (∃ t, e = .cancellation t i .order) ∨
  (∃ t did dt dk tm, e = .deliveryComplete t i did dt dk tm) ∨
  (∃ t data, e = .orderArrival t i data) ∨
  (∃ t n, e = .tick t n ∧ i ∈ s.unassigned_orders)

/-! ## Specification-side formulas

These definitions transcribe the *spec's words* (not the code) for the
refinement claims that compare the two. -/

/-- Spec §4.3, fixed mode: "price = size-class base rate × distance". -/
def specFixedPrice (o : Order) (distKm : ℚ) : ℚ :=
  SIZE_BASE_PRICES o.parcel_size_class * distKm

/-- Spec §4.3, dynamic mode: the fixed price times the time-of-day surge
factor, the service-level factor and `(1 - time-slot discount)`, floored
at 50% of the undiscounted base price. -/
def specDynamicPrice (o : Order) (t distKm : ℚ) : ℚ :=
  max (specFixedPrice o distKm * SURGE_MULTIPLIERS (get_time_slot t) *
        SERVICE_LEVEL_FACTORS o.service_level *
        (1 - TIME_SLOT_DISCOUNTS o.service_level))
    (specFixedPrice o distKm * (1/2))

/-- The delivery-completion timestamp as amended for claim C9: `now` plus
the travel total clipped to 30 minutes, moved to `now + 5` when it would
pass the simulation horizon. -/
def specCompletionTime (now tp dt : ℚ) : ℚ :=
  if now + min (tp + dt) 30 > SIMULATION_END_TIME then now + 5
  else now + min (tp + dt) 30

/-! ## Concrete instances used by counterexamples and witnesses

`distZero` and `dist30` stand in for the Haversine distance: Haversine of
two equal coordinates is exactly `0`, and a 30 km separation is realised
by concrete coordinate pairs, so each concrete evaluation below reflects a
geometry the Python code can be in. -/

/-- The everywhere-zero distance function (all points coincide). -/
def distZero : Dist := fun _ _ => 0

/-- Distance 0 between equal points, 30 km otherwise. -/
def dist30 : Dist := fun p q => if p = q then 0 else 30

/-- A zero-size order at the origin (all dataclass defaults). -/
def exOrder : Order := { order_id := 0 }

/-- A default driver at the origin: type "general", speed 30 km/h,
capacity 100 l / 50 kg, `max_orders = 3`, no current orders. -/
def exDriver : Driver := { driver_id := 0 }

/-- A driver away from the origin (so `dist30` puts it 30 km from
`exOrder`'s pickup). -/
def exDriverFar : Driver := { driver_id := 1, current_lat := 1, current_lng := 1 }

/-- A delivered copy of `exOrder`. -/
def exOrderDelivered : Order := { order_id := 0, status := .delivered }

/-- A one-order state whose single order is already DELIVERED. -/
def exDeliveredState : SimState :=
  { orders := fun i => if i = 0 then some exOrderDelivered else none,
    drivers := fun _ => none }

/-- A fresh one-order one-driver state as `setup_simulation` creates it. -/
def exInitState : SimState :=
  { orders := fun i => if i = 0 then some exOrder else none,
    drivers := fun i => if i = 0 then some exDriver else none,
    unassigned_orders := [0],
    available_drivers := [0] }

/-! ## Theorems -/

/-- C5: Conservation.  After any `_update_order_metrics` pass — hence after
the first tick, from which `run_simulation` refreshes the KPI metrics on
every tick — the reported metrics satisfy
`matched_orders + expired_orders + cancelled_orders = total_orders`,
`matched_orders` counting ACCEPTED-or-DELIVERED orders.  (The code makes
this hold identically: when the statuses do not account for every order it
folds the difference into `expired_orders`.) -/
theorem C5_conservation (orders : List Order) (m : KPIMetrics) :
    (update_order_metrics orders m).matched_orders +
      (update_order_metrics orders m).expired_orders +
      (update_order_metrics orders m).cancelled_orders =
      (update_order_metrics orders m).total_orders := by
  unfold update_order_metrics
  by_cases h0 : (0 : ℤ) < (orders.length : ℤ)
  · simp only [h0, if_true]
    split
    · dsimp only
      omega
    · dsimp only
      omega
  · simp only [h0, if_false]
    have hlen : orders.length = 0 := by omega
    rw [List.eq_nil_of_length_eq_zero hlen]
    simp

/-- C6: Fixed vs dynamic pricing.  For every order, time and distance, the
fixed-mode price of `calculate_order_price` is exactly the size-class base
rate times the distance, and the dynamic-mode price is exactly that fixed
price times the time-of-day surge multiplier, the service-level factor and
`(1 - time-slot discount)`, floored at 50% of the undiscounted base price —
no other adjustment. -/
theorem C6_fixed_vs_dynamic_pricing (o : Order) (t d : ℚ) :
    calculate_order_price o t .fixed d = specFixedPrice o d ∧
      calculate_order_price o t .dynamic d = specDynamicPrice o t d :=
  ⟨rfl, rfl⟩

/-- C7: Platform profit is `price * COMMISSION_RATE` (0.15) and entirely
independent of the driver wage argument. -/
theorem C7_platform_profit (p w1 w2 : ℚ) :
    calculate_platform_profit p w1 = calculate_platform_profit p w2 ∧
      calculate_platform_profit p w1 = p * COMMISSION_RATE ∧
      COMMISSION_RATE = 15/100 :=
  ⟨rfl, rfl, rfl⟩

/-- C8 counterexample: at distance 0 and time 0 the fixed-mode wage is the
1.0 floor (`max(wage, 1.0)` in `calculate_driver_wage`), not the claimed
bare formula `0 * 0.4 + 0 * 0.02 = 0`. -/
theorem C8_counterexample :
    calculate_driver_wage 0 0 .fixed (9/2) 1 = 1 ∧
      (0 : ℚ) * (4/10) + (0 : ℚ) * (2/100) = 0 ∧ (1 : ℚ) ≠ 0 := by
  refine ⟨?_, by norm_num, by norm_num⟩
  norm_num [calculate_driver_wage]

/-- C8 as amended: for every non-negative distance and time (and any
rating and surge argument, which the fixed branch ignores), the fixed-mode
wage is `max(distance_km * 0.4 + time_minutes * 0.02, 1.0)` — the linear
formula of the claim, floored at the minimum wage of 1.0. -/
theorem C8_fixed_wage_amended (dkm tmin rating surge : ℚ)
    (_h1 : 0 ≤ dkm) (_h2 : 0 ≤ tmin) :
    calculate_driver_wage dkm tmin .fixed rating surge =
      max (dkm * (4/10) + tmin * (2/100)) 1 :=
  rfl

/-- Witness for `C8_fixed_wage_amended` at distance 5 km, time 12 min. -/
theorem C8_fixed_wage_amended_witness :
    (0 : ℚ) ≤ 5 ∧ (0 : ℚ) ≤ 12 ∧
      calculate_driver_wage 5 12 .fixed (9/2) 1 =
        max ((5 : ℚ) * (4/10) + (12 : ℚ) * (2/100)) 1 :=
  ⟨by norm_num, by norm_num,
    C8_fixed_wage_amended 5 12 (9/2) 1 (by norm_num) (by norm_num)⟩

/-- C10: the detour check.  Because `check_detour_feasibility` computes
`detour = (driver→pickup + pickup→drop) − direct` with
`direct = pickup→drop` (the same function on the same arguments), the
pickup→drop distance cancels: for every distance function, order and
driver, the check succeeds iff `distance(driver, pickup) ≤ 50` (the
module constant `MAX_DETOUR_KM = 50.0`), so it never depends on the drop
location and never consults the engine's per-run `max_detour_km`. -/
theorem C10_detour_iff (dist : Dist) (o : Order) (d : Driver) :
    (check_detour_feasibility dist o d = true ↔ dist d.pos o.pickupPos ≤ 50) := by
  simp only [check_detour_feasibility, MAX_DETOUR_KM, decide_eq_true_eq]
  constructor
  · intro h; linarith
  · intro h; linarith

/-- C4 (code bug): `is_feasible_match` does not return a boolean on a
capacity-passing pair — it raises.  At a concrete order/driver pair with
positive speed that passes `can_accept_order`, the time-window check
reaches `datetime.timedelta` (`filters.py` line 87, where `datetime` is
the class imported by `from datetime import datetime`) and the call ends
in `AttributeError`. -/
theorem C4_filter_raises :
    is_feasible_match distZero exOrder exDriver 480 = .error .attributeError ∧
      exDriver.can_accept_order exOrder = true ∧ (0 : ℚ) < exDriver.speed_kmph :=
  ⟨rfl, rfl, by norm_num [exDriver]⟩

/-- Helper: closed form of `scheduleDeliveryCompletionEvents` for a
nonzero driver speed. -/
theorem schedule_events_eq (dist : Dist) (now : ℚ) (o : Order) (d : Driver)
    (h : d.speed_kmph ≠ 0) :
    scheduleDeliveryCompletionEvents dist now o d =
      .ok (Event.deliveryComplete
            (specCompletionTime now (dist d.pos o.pickupPos / d.speed_kmph * 60)
              (dist o.pickupPos o.dropPos / d.speed_kmph * 60))
            o.order_id d.driver_id
            (specCompletionTime now (dist d.pos o.pickupPos / d.speed_kmph * 60)
              (dist o.pickupPos o.dropPos / d.speed_kmph * 60))
            (dist d.pos o.pickupPos + dist o.pickupPos o.dropPos)
            (min (dist d.pos o.pickupPos / d.speed_kmph * 60 +
                  dist o.pickupPos o.dropPos / d.speed_kmph * 60) 30),
          Event.orderPickup (now + dist d.pos o.pickupPos / d.speed_kmph * 60)
            o.order_id d.driver_id
            (now + dist d.pos o.pickupPos / d.speed_kmph * 60)) := by
  simp only [scheduleDeliveryCompletionEvents, pyDiv, h, if_false, specCompletionTime,
    bind, Except.bind, pure, Except.pure]

/-- C9 counterexample: an assignment at the horizon (20:00, minute 1200)
to a driver 30 km from the pickup.  The DELIVERY_COMPLETE event is clamped
to minute 1205 (`now + 5`), but the ORDER_PICKUP event is scheduled at
`now + time_to_pickup` = minute 1260 — past `SIMULATION_END_TIME`, with no
clipping and no horizon check, refuting "both ... scheduled to not exceed
the simulation horizon". -/
theorem C9_counterexample :
    scheduleDeliveryCompletionEvents dist30 1200 exOrder exDriverFar =
      .ok (Event.deliveryComplete 1205 0 1 1205 30 30,
           Event.orderPickup 1260 0 1 1260) ∧
      SIMULATION_END_TIME < 1260 := by
  have hd : dist30 exDriverFar.pos exOrder.pickupPos = 30 := by
    norm_num [dist30, exDriverFar, exOrder, Driver.pos, Order.pickupPos]
  have hd2 : dist30 exOrder.pickupPos exOrder.dropPos = 0 := by
    norm_num [dist30, exOrder, Order.pickupPos, Order.dropPos]
  constructor
  · rw [schedule_events_eq dist30 1200 exOrder exDriverFar (by norm_num [exDriverFar])]
    rw [hd, hd2]
    norm_num [specCompletionTime, SIMULATION_END_TIME, exDriverFar, exOrder]
  · norm_num [SIMULATION_END_TIME]

/-- C9 as amended: for every assignment with nonzero driver speed, the
engine schedules DELIVERY_COMPLETE at `now + min(time_to_pickup +
delivery_time, 30 min)`, moved to `now + 5 min` when that would pass the
simulation horizon — and ORDER_PICKUP at `now + time_to_pickup`, with no
clipping and no horizon check. -/
theorem C9_schedule_amended (dist : Dist) (now : ℚ) (o : Order) (d : Driver)
    (h : d.speed_kmph ≠ 0) :
    scheduleDeliveryCompletionEvents dist now o d =
      .ok (Event.deliveryComplete
            (specCompletionTime now (dist d.pos o.pickupPos / d.speed_kmph * 60)
              (dist o.pickupPos o.dropPos / d.speed_kmph * 60))
            o.order_id d.driver_id
            (specCompletionTime now (dist d.pos o.pickupPos / d.speed_kmph * 60)
              (dist o.pickupPos o.dropPos / d.speed_kmph * 60))
            (dist d.pos o.pickupPos + dist o.pickupPos o.dropPos)
            (min (dist d.pos o.pickupPos / d.speed_kmph * 60 +
                  dist o.pickupPos o.dropPos / d.speed_kmph * 60) 30),
          Event.orderPickup (now + dist d.pos o.pickupPos / d.speed_kmph * 60)
            o.order_id d.driver_id
            (now + dist d.pos o.pickupPos / d.speed_kmph * 60)) :=
  schedule_events_eq dist now o d h

/-- Witness for `C9_schedule_amended` at the counterexample input. -/
theorem C9_schedule_amended_witness :
    exDriverFar.speed_kmph ≠ 0 ∧
      scheduleDeliveryCompletionEvents dist30 1200 exOrder exDriverFar =
        .ok (Event.deliveryComplete
              (specCompletionTime 1200 (dist30 exDriverFar.pos exOrder.pickupPos / exDriverFar.speed_kmph * 60)
                (dist30 exOrder.pickupPos exOrder.dropPos / exDriverFar.speed_kmph * 60))
              exOrder.order_id exDriverFar.driver_id
              (specCompletionTime 1200 (dist30 exDriverFar.pos exOrder.pickupPos / exDriverFar.speed_kmph * 60)
                (dist30 exOrder.pickupPos exOrder.dropPos / exDriverFar.speed_kmph * 60))
              (dist30 exDriverFar.pos exOrder.pickupPos + dist30 exOrder.pickupPos exOrder.dropPos)
              (min (dist30 exDriverFar.pos exOrder.pickupPos / exDriverFar.speed_kmph * 60 +
                    dist30 exOrder.pickupPos exOrder.dropPos / exDriverFar.speed_kmph * 60) 30),
            Event.orderPickup
              (1200 + dist30 exDriverFar.pos exOrder.pickupPos / exDriverFar.speed_kmph * 60)
              exOrder.order_id exDriverFar.driver_id
              (1200 + dist30 exDriverFar.pos exOrder.pickupPos / exDriverFar.speed_kmph * 60)) :=
  have h : exDriverFar.speed_kmph ≠ 0 := by norm_num [exDriverFar]
  ⟨h, C9_schedule_amended dist30 1200 exOrder exDriverFar h⟩

/-! ### C1: what the bundling matcher actually guarantees -/

/-- Helper: the `valid_orders` accumulation only adds orders passing
`can_accept_order`. -/
theorem yangoValidStep_inv (dist : Dist) (ao : List Nat) (dr : Driver)
    (acc : List Order × ℚ) (o : Order)
    (h : ∀ x ∈ acc.1, dr.can_accept_order x = true) :
    ∀ x ∈ (yangoValidStep dist ao dr acc o).1, dr.can_accept_order x = true := by
  intro x hx
  unfold yangoValidStep at hx
  split at hx
  · exact h x hx
  · split at hx
    · rename_i hacc
      rcases List.mem_append.mp hx with h1 | h1
      · exact h x h1
      · rw [List.mem_singleton.mp h1]
        exact hacc
    · exact h x hx

/-- Helper: every order in `valid_orders` passes `can_accept_order`. -/
theorem yangoValidOrders_inv (dist : Dist) (ao : List Nat) (dr : Driver)
    (l : List Order) :
    ∀ x ∈ (yangoValidOrders dist ao dr l).1, dr.can_accept_order x = true := by
  unfold yangoValidOrders
  suffices H : ∀ acc : List Order × ℚ, (∀ x ∈ acc.1, dr.can_accept_order x = true) →
      ∀ x ∈ (l.foldl (yangoValidStep dist ao dr) acc).1, dr.can_accept_order x = true by
    exact H ([], 0) (by simp)
  induction l with
  | nil => intro acc hacc; exact hacc
  | cons a l ih =>
    intro acc hacc
    exact ih _ (yangoValidStep_inv dist ao dr acc a hacc)

/-- Helper: the best-group selection only ever holds orders passing
`can_accept_order` for the driver under consideration. -/
theorem yangoBestStep_inv (dist : Dist) (ao : List Nat) (dr : Driver)
    (sel : BestSel) (g : (ℤ × ℤ) × List Order)
    (h : ∀ x ∈ sel.best_orders, dr.can_accept_order x = true) :
    ∀ x ∈ (yangoBestStep dist ao dr sel g).best_orders, dr.can_accept_order x = true := by
  unfold yangoBestStep
  split
  · exact h
  · dsimp only
    split
    · exact h
    · split
      · intro x hx
        exact yangoValidOrders_inv dist ao dr g.2 x hx
      · exact h

/-- Helper: the best-group fold preserves the selection property. -/
theorem yangoBestFold_inv (dist : Dist) (ao : List Nat) (dr : Driver)
    (gs : OrderGroups) (sel : BestSel)
    (h : ∀ x ∈ sel.best_orders, dr.can_accept_order x = true) :
    ∀ x ∈ (gs.foldl (yangoBestStep dist ao dr) sel).best_orders,
      dr.can_accept_order x = true := by
  induction gs generalizing sel with
  | nil => exact h
  | cons g gs ih => exact ih _ (yangoBestStep_inv dist ao dr sel g h)

/-- Helper: assigning orders that all pass `can_accept_order` keeps every
recorded assignment `can_accept`-valid. -/
theorem yangoAssignFold_inv (dr : Driver) (a : ℤ × ℤ) (lst : List Order)
    (st : MatchAcc × OrderGroups)
    (hl : ∀ x ∈ lst, dr.can_accept_order x = true)
    (hst : ∀ p ∈ st.1.assignments, p.2.can_accept_order p.1 = true) :
    ∀ p ∈ (lst.foldl (yangoAssignStep dr a) st).1.assignments,
      p.2.can_accept_order p.1 = true := by
  induction lst generalizing st with
  | nil => exact hst
  | cons o lst ih =>
    apply ih
    · intro x hx; exact hl x (List.mem_cons_of_mem _ hx)
    · intro p hp
      unfold yangoAssignStep at hp
      split at hp
      · exact hst p hp
      · dsimp only at hp
        rcases List.mem_append.mp hp with h1 | h1
        · exact hst p h1
        · rw [List.mem_singleton.mp h1]
          exact hl o (List.mem_cons_self _ _)

/-- Helper: one Yango driver step keeps every recorded assignment
`can_accept`-valid. -/
theorem yangoDriverStep_inv (dist : Dist) (st : MatchAcc × OrderGroups)
    (dr : Driver)
    (hst : ∀ p ∈ st.1.assignments, p.2.can_accept_order p.1 = true) :
    ∀ p ∈ (yangoDriverStep dist st dr).1.assignments,
      p.2.can_accept_order p.1 = true := by
  unfold yangoDriverStep
  split
  · exact hst
  · dsimp only
    split
    · exact hst
    · split
      · exact hst
      · rename_i a _
        intro p hp
        dsimp only at hp
        refine yangoAssignFold_inv dr a _ st ?_ hst p hp
        intro x hx
        have hx2 := List.take_subset _ _ hx
        exact yangoBestFold_inv dist st.1.assigned_orders dr st.2 {} (by simp [BestSel]) x hx2

/-- Helper: every Yango-pass assignment passes `can_accept_order`. -/
theorem yangoPass_inv (dist : Dist) (orders : List Order) (drivers : List Driver)
    (t : ℚ) :
    ∀ p ∈ greedy_matching_yango_bus_stop_pickup dist orders drivers t,
      p.2.can_accept_order p.1 = true := by
  unfold greedy_matching_yango_bus_stop_pickup
  suffices H : ∀ (ds : List Driver) (st : MatchAcc × OrderGroups),
      (∀ p ∈ st.1.assignments, p.2.can_accept_order p.1 = true) →
      ∀ p ∈ (ds.foldl (yangoDriverStep dist) st).1.assignments,
        p.2.can_accept_order p.1 = true by
    exact H _ _ (by simp [MatchAcc])
  intro ds
  induction ds with
  | nil => intro st hst; exact hst
  | cons d ds ih =>
    intro st hst
    exact ih _ (yangoDriverStep_inv dist st d hst)

/-- Helper: the fallback best-driver fold only ever holds a driver passing
`can_accept_order`. -/
theorem fallbackBestStep_inv (dist : Dist) (ad : List Nat) (o : Order)
    (best : Option (Driver × ℚ)) (d : Driver)
    (h : ∀ pb, best = some pb → pb.1.can_accept_order o = true) :
    ∀ pb, fallbackBestStep dist ad o best d = some pb →
      pb.1.can_accept_order o = true := by
  intro pb hpb
  unfold fallbackBestStep at hpb
  split at hpb
  · exact h pb hpb
  · split at hpb
    · rename_i hacc
      cases best with
      | none =>
        dsimp only at hpb
        injection hpb with h2
        rw [← h2]
        exact hacc
      | some pb0 =>
        dsimp only at hpb
        split at hpb
        · injection hpb with h2
          rw [← h2]
          exact hacc
        · exact h pb hpb
    · exact h pb hpb

/-- Helper: the fallback pass's chosen driver passes `can_accept_order`. -/
theorem fallbackBestDriver_can_accept (dist : Dist) (ad : List Nat)
    (rd : List Driver) (o : Order) (bd : Driver)
    (h : fallbackBestDriver dist ad rd o = some bd) :
    bd.can_accept_order o = true := by
  unfold fallbackBestDriver at h
  rcases Option.map_eq_some'.mp h with ⟨pb, hpb, hfst⟩
  suffices H : ∀ (ds : List Driver) (best : Option (Driver × ℚ)),
      (∀ x, best = some x → x.1.can_accept_order o = true) →
      ∀ x, ds.foldl (fallbackBestStep dist ad o) best = some x →
        x.1.can_accept_order o = true by
    rw [← hfst]
    exact H rd none (by intro x hx; cases hx) pb hpb
  intro ds
  induction ds with
  | nil => intro best hbest x hx; exact hbest x hx
  | cons d ds ih =>
    intro best hbest x hx
    exact ih _ (fallbackBestStep_inv dist ad o best d hbest) x hx

/-- Helper: the fallback fold keeps every recorded assignment
`can_accept`-valid. -/
theorem fallbackFold_inv (dist : Dist) (rd : List Driver) (lst : List Order)
    (acc : MatchAcc)
    (hacc : ∀ p ∈ acc.assignments, p.2.can_accept_order p.1 = true) :
    ∀ p ∈ (lst.foldl (fallbackStep dist rd) acc).assignments,
      p.2.can_accept_order p.1 = true := by
  induction lst generalizing acc with
  | nil => exact hacc
  | cons o lst ih =>
    apply ih
    intro p hp
    unfold fallbackStep at hp
    split at hp
    · exact hacc p hp
    · split at hp
      · exact hacc p hp
      · rename_i bd hbd
        dsimp only at hp
        rcases List.mem_append.mp hp with h1 | h1
        · exact hacc p h1
        · rw [List.mem_singleton.mp h1]
          exact fallbackBestDriver_can_accept dist acc.assigned_drivers rd o bd hbd

/-- C1 counterexample: with one zero-size order and one default (non-Yango)
driver at 8:00, the bundling matcher (`greedy_matching`, bundling enabled)
returns the pair, yet the pair does not pass `is_feasible_match` when
re-evaluated with the same inputs — the filter raises `AttributeError`
instead of returning `True` (the bundling path never consults it). -/
theorem C1_counterexample :
    greedy_matching distZero [exOrder] [exDriver] 480 = [(exOrder, exDriver)] ∧
      is_feasible_match distZero exOrder exDriver 480 ≠ .ok true := by
  constructor
  · rfl
  · intro h
    rw [(rfl : is_feasible_match distZero exOrder exDriver 480 = .error .attributeError)] at h
    cases h

/-- C1 as amended: every (order, driver) pair returned by the matching
engine (`greedy_matching` with bundling enabled) passes the
capacity/headroom check `can_accept_order` — the only feasibility test the
bundling path applies; the full filter `is_feasible_match` is never
invoked by it (and would raise rather than return a boolean). -/
theorem C1_bundling_can_accept (dist : Dist) (orders : List Order)
    (drivers : List Driver) (t : ℚ) (o : Order) (d : Driver)
    (h : (o, d) ∈ greedy_matching dist orders drivers t) :
    d.can_accept_order o = true := by
  simp only [greedy_matching, greedy_matching_with_bundling] at h
  split at h
  · exact yangoPass_inv dist orders drivers t (o, d) h
  · refine fallbackFold_inv dist _ _ _ ?_ (o, d) h
    intro p hp
    exact yangoPass_inv dist orders drivers t p hp

/-- Witness for `C1_bundling_can_accept` at the counterexample input. -/
theorem C1_bundling_can_accept_witness :
    (exOrder, exDriver) ∈ greedy_matching distZero [exOrder] [exDriver] 480 ∧
      exDriver.can_accept_order exOrder = true :=
  have hmem : (exOrder, exDriver) ∈ greedy_matching distZero [exOrder] [exDriver] 480 :=
    List.mem_singleton.mpr rfl
  ⟨hmem, C1_bundling_can_accept distZero [exOrder] [exDriver] 480 exOrder exDriver hmem⟩

/-! ### C3: terminal statuses -/

/-- C3 counterexample: a CANCELLATION event applied to an order already
DELIVERED moves it to CANCELLED — `Cancellation.apply` calls
`order.cancel` unconditionally.  This both exits a terminal status and
enters CANCELLED from DELIVERED (not from PUBLISHED or ACCEPTED). -/
theorem C3_counterexample :
    statusAt exDeliveredState 0 = some .delivered ∧
      statusAt (exceptState (applyEvent distZero
        (.cancellation 500 0 .order) exDeliveredState)) 0 = some .cancelled :=
  ⟨rfl, rfl⟩

/-- Helper: `Except` bind on a success. -/
theorem except_bind_ok0 (a : α) (f : α → Except ε β) : (Except.ok a >>= f) = f a := rfl

/-- Helper: `Except` bind on an error. -/
theorem except_bind_error0 (e : ε) (f : α → Except ε β) :
    ((Except.error e : Except ε α) >>= f) = .error e := rfl

/-- Helper: one expiry step never touches the order at a different id
outside the unassigned pool, and never re-adds it. -/
theorem expireStep_pres (t : ℚ) (s : SimState) (oid i : Nat) (hne : oid ≠ i)
    (h2 : i ∉ s.unassigned_orders) :
    (exceptState (expireStep t s oid)).orders i = s.orders i ∧
      i ∉ (exceptState (expireStep t s oid)).unassigned_orders := by
  unfold expireStep
  cases ho : s.orders oid with
  | none => exact ⟨rfl, h2⟩
  | some o =>
    dsimp only
    split
    · constructor
      · simp [exceptState, updFun, Ne.symm hne]
      · simp only [exceptState]
        intro hm
        exact h2 (List.mem_of_mem_erase hm)
    · exact ⟨rfl, h2⟩

/-- Helper: the expiry fold never touches the order at an id outside both
the iterated snapshot and the unassigned pool, and never re-adds it. -/
theorem expireFold_pres (t : ℚ) (i : Nat) :
    ∀ (lst : List Nat) (s : SimState), i ∉ lst → i ∉ s.unassigned_orders →
      (exceptState (lst.foldlM (expireStep t) s)).orders i = s.orders i ∧
        i ∉ (exceptState (lst.foldlM (expireStep t) s)).unassigned_orders := by
  intro lst
  induction lst with
  | nil => intro s _ h2; exact ⟨rfl, h2⟩
  | cons oid lst ih =>
    intro s h1 h2
    have hne : oid ≠ i := fun he => h1 (he ▸ List.mem_cons_self _ _)
    have h1' : i ∉ lst := fun hm => h1 (List.mem_cons_of_mem _ hm)
    rw [List.foldlM_cons]
    have hpres := expireStep_pres t s oid i hne h2
    cases hstep : expireStep t s oid with
    | error s' =>
      rw [hstep] at hpres
      simp only [exceptState] at hpres
      rw [except_bind_error0]
      exact hpres
    | ok s' =>
      rw [hstep] at hpres
      simp only [exceptState] at hpres
      rw [except_bind_ok0]
      rcases ih s' h1' hpres.2 with ⟨ha, hb⟩
      exact ⟨ha.trans hpres.1, hb⟩

/-- Helper: processing one assignment never touches the order at an id
outside the unassigned pool, and never re-adds it. -/
theorem processAssignment_pres (dist : Dist) (s : SimState) (o' : Order)
    (d' : Driver) (i : Nat) (h2 : i ∉ s.unassigned_orders) :
    (exceptState (processAssignment dist s o' d')).orders i = s.orders i ∧
      i ∉ (exceptState (processAssignment dist s o' d')).unassigned_orders := by
  unfold processAssignment
  by_cases hg : o'.order_id ∈ s.unassigned_orders ∧ d'.driver_id ∈ s.available_drivers
  · rw [if_pos hg]
    have hne : o'.order_id ≠ i := fun he => h2 (he ▸ hg.1)
    cases ho : s.orders o'.order_id with
    | none =>
      cases hd : s.drivers d'.driver_id <;> exact ⟨rfl, h2⟩
    | some oo =>
      cases hd : s.drivers d'.driver_id with
      | none => exact ⟨rfl, h2⟩
      | some dd =>
        dsimp only
        constructor
        · split <;> split <;> simp [exceptState, setFun, Ne.symm hne]
        · split <;> split <;>
            (simp only [exceptState]
             intro hm
             exact h2 (List.mem_of_mem_erase hm))
  · rw [if_neg hg]
    exact ⟨rfl, h2⟩

/-- Helper: the assignment-processing fold never touches the order at an
id outside the unassigned pool. -/
theorem assignFold_pres (dist : Dist) (i : Nat) :
    ∀ (ps : List (Order × Driver)) (s : SimState), i ∉ s.unassigned_orders →
      (exceptState (ps.foldlM (fun st p => processAssignment dist st p.1 p.2) s)).orders i
          = s.orders i ∧
        i ∉ (exceptState (ps.foldlM (fun st p => processAssignment dist st p.1 p.2) s)).unassigned_orders := by
  intro ps
  induction ps with
  | nil => intro s h2; exact ⟨rfl, h2⟩
  | cons p ps ih =>
    intro s h2
    rw [List.foldlM_cons]
    cases hstep : processAssignment dist s p.1 p.2 with
    | error s' =>
      have : exceptState (processAssignment dist s p.1 p.2) = s' := by rw [hstep]; rfl
      have hpres := processAssignment_pres dist s p.1 p.2 i h2
      rw [this] at hpres
      have hbind : (Except.error s' >>=
          fun s'' => ps.foldlM (fun st p => processAssignment dist st p.1 p.2) s'') =
          (Except.error s' : Except SimState SimState) := rfl
      rw [hbind]
      exact hpres
    | ok s' =>
      have : exceptState (processAssignment dist s p.1 p.2) = s' := by rw [hstep]; rfl
      have hpres := processAssignment_pres dist s p.1 p.2 i h2
      rw [this] at hpres
      have hbind : (Except.ok s' >>=
          fun s'' => ps.foldlM (fun st p => processAssignment dist st p.1 p.2) s'') =
          ps.foldlM (fun st p => processAssignment dist st p.1 p.2) s' := rfl
      rw [hbind]
      rcases ih s' hpres.2 with ⟨ha, hb⟩
      exact ⟨ha.trans hpres.1, hb⟩

/-- Helper: `Except` bind on a success. -/
theorem except_bind_ok (a : α) (f : α → Except ε β) : (Except.ok a >>= f) = f a := rfl

/-- Helper: `Except` bind on an error. -/
theorem except_bind_error (e : ε) (f : α → Except ε β) :
    ((Except.error e : Except ε α) >>= f) = .error e := rfl

/-- Helper: a failing `lookupMany` reports exactly the state it was
given. -/
theorem lookupMany_cases (f : Nat → Option α) (ids : List Nat) (s : SimState) :
    (∃ l, lookupMany f ids s = .ok l) ∨ lookupMany f ids s = .error s := by
  unfold lookupMany
  induction ids with
  | nil => exact Or.inl ⟨[], rfl⟩
  | cons a ids ih =>
    rw [List.foldrM_cons]
    rcases ih with ⟨l, hl⟩ | hl
    · rw [hl, except_bind_ok]
      cases hfa : f a with
      | none => exact Or.inr rfl
      | some x => exact Or.inl ⟨x :: l, rfl⟩
    · rw [hl, except_bind_error]
      exact Or.inr rfl

/-- Helper: `trigger_matching` never touches the order at an id outside
the unassigned pool, and never re-adds it. -/
theorem trigger_matching_pres (dist : Dist) (s : SimState) (i : Nat)
    (h2 : i ∉ s.unassigned_orders) :
    (exceptState (trigger_matching dist s)).orders i = s.orders i ∧
      i ∉ (exceptState (trigger_matching dist s)).unassigned_orders := by
  unfold trigger_matching
  by_cases hg : s.unassigned_orders = [] ∨ s.available_drivers = []
  · simp only [hg, if_true]
    exact ⟨rfl, h2⟩
  · simp only [hg, if_false]
    rcases lookupMany_cases s.orders s.unassigned_orders s with ⟨ao, hao⟩ | hao
    · rw [hao, except_bind_ok]
      rcases lookupMany_cases s.drivers s.available_drivers s with ⟨ad, had⟩ | had
      · rw [had, except_bind_ok]
        exact assignFold_pres dist i _ s h2
      · rw [had, except_bind_error]
        exact ⟨rfl, h2⟩
    · rw [hao, except_bind_error]
      exact ⟨rfl, h2⟩

/-- Helper: push a property through an `Except` bind, remembering the
error payload is a state too. -/
theorem exceptState_bind (m : Except SimState SimState)
    (k : SimState → Except SimState SimState) (P : SimState → Prop)
    (h1 : P (exceptState m)) (h2 : ∀ s', m = .ok s' → P (exceptState (k s'))) :
    P (exceptState (m >>= k)) := by
  cases m with
  | error s' => exact h1
  | ok s' => exact h2 s' rfl

/-- Helper: a guarded matching round never touches the order at an id
outside the unassigned pool. -/
theorem triggerIf_pres (dist : Dist) (s1 : SimState) (i : Nat) (c : Prop)
    [Decidable c] (hp : i ∉ s1.unassigned_orders) :
    (exceptState (if c then trigger_matching dist s1 else pure s1)).orders i = s1.orders i ∧
      i ∉ (exceptState (if c then trigger_matching dist s1 else pure s1)).unassigned_orders := by
  split
  · exact trigger_matching_pres dist s1 i hp
  · exact ⟨rfl, hp⟩

/-- Helper: a TICK never touches the order at an id outside the unassigned
pool (expiry only hits the snapshot of that pool; matching only accepts
ids drawn from it). -/
theorem tickApply_pres (dist : Dist) (t : ℚ) (s : SimState) (i : Nat)
    (h2 : i ∉ s.unassigned_orders) :
    (exceptState (tickApply dist t s)).orders i = s.orders i ∧
      i ∉ (exceptState (tickApply dist t s)).unassigned_orders := by
  unfold tickApply
  refine exceptState_bind _ _
    (fun s' => s'.orders i = s.orders i ∧ i ∉ s'.unassigned_orders) ?_ ?_
  · exact expireFold_pres t i s.unassigned_orders s h2 h2
  · intro s1 hm
    have hp := expireFold_pres t i s.unassigned_orders s h2 h2
    rw [hm] at hp
    simp only [exceptState] at hp
    refine exceptState_bind _ _
      (fun s' => s'.orders i = s.orders i ∧ i ∉ s'.unassigned_orders) ?_ ?_
    · rcases triggerIf_pres dist s1 i
        (s1.unassigned_orders ≠ [] ∧ s1.available_drivers ≠ []) hp.2 with ⟨ha, hb⟩
      exact ⟨ha.trans hp.1, hb⟩
    · intro s2 hm2
      have hp2 : s2.orders i = s.orders i ∧ i ∉ s2.unassigned_orders := by
        rcases triggerIf_pres dist s1 i
          (s1.unassigned_orders ≠ [] ∧ s1.available_drivers ≠ []) hp.2 with ⟨ha, hb⟩
        rw [hm2] at ha hb
        simp only [exceptState] at ha hb
        exact ⟨ha.trans hp.1, hb⟩
      rcases triggerIf_pres dist s2 i
        (s2.unassigned_orders ≠ [] ∧ s2.available_drivers ≠ []) hp2.2 with ⟨ha, hb⟩
      exact ⟨ha.trans hp2.1, hb⟩

/-- Helper: one step of the driver-cancellation order loop never touches
the orders map. -/
theorem cancelDriverOrderStep_orders (s : SimState) (oid : Nat) :
    (exceptState (cancelDriverOrderStep s oid)).orders = s.orders := by
  unfold cancelDriverOrderStep
  cases ho : s.orders oid with
  | none => rfl
  | some o =>
    dsimp only
    split
    · rfl
    · rfl

/-- Helper: the driver-cancellation order loop never touches the orders
map. -/
theorem cancelDriverFold_orders (lst : List Nat) :
    ∀ s : SimState, (exceptState (lst.foldlM cancelDriverOrderStep s)).orders = s.orders := by
  induction lst with
  | nil => intro s; rfl
  | cons oid lst ih =>
    intro s
    rw [List.foldlM_cons]
    have hstep := cancelDriverOrderStep_orders s oid
    cases hs : cancelDriverOrderStep s oid with
    | error s' =>
      rw [hs] at hstep
      simp only [exceptState] at hstep
      rw [except_bind_error0]
      exact hstep
    | ok s' =>
      rw [hs] at hstep
      simp only [exceptState] at hstep
      rw [except_bind_ok0]
      exact (ih s').trans hstep

/-- C3 as amended: an order in a terminal status (DELIVERED, EXPIRED or
CANCELLED) keeps that status under every applied event *except* an
order-CANCELLATION naming it (which sets CANCELLED from any status, as the
counterexample shows), a DELIVERY_COMPLETE naming it (which sets DELIVERED
from any status), an ORDER_ARRIVAL reusing its id (which replaces it with
a fresh PUBLISHED order), or a TICK while the id sits in the unassigned
pool.  In particular the original claim's blanket statement is false, and
CANCELLED can be entered from any status, not only PUBLISHED or
ACCEPTED. -/
theorem C3_terminal_stable (dist : Dist) (s : SimState) (e : Event) (i : Nat)
    (o : Order) (ho : s.orders i = some o) (_ht : o.status.isTerminal = true)
    (h : ¬ eventTouchesOrderStatus e s i) :
    statusAt (exceptState (applyEvent dist e s)) i = some o.status := by
  cases e with
  | orderArrival t j data =>
    have hji : j ≠ i := by
      intro he
      exact h (Or.inr (Or.inr (Or.inl ⟨t, data, by rw [he]⟩)))
    simp only [applyEvent, exceptState, orderArrivalApply, statusAt, setFun]
    simp [Ne.symm hji, ho]
  | driverArrival t j data =>
    simp only [applyEvent, exceptState, driverArrivalApply, statusAt]
    simp [ho]
  | tick t n =>
    have hni : i ∉ s.unassigned_orders := by
      intro hm
      exact h (Or.inr (Or.inr (Or.inr ⟨t, n, rfl, hm⟩)))
    have hp := tickApply_pres dist t s i hni
    simp only [applyEvent, statusAt]
    rw [hp.1, ho]
    rfl
  | cancellation t j et =>
    cases et with
    | order =>
      have hji : j ≠ i := by
        intro he
        exact h (Or.inl ⟨t, by rw [he]⟩)
      simp only [applyEvent, exceptState]
      unfold cancellationOrderApply
      cases hoj : s.orders j with
      | none => simp [statusAt, ho]
      | some oj =>
        dsimp only
        split <;> split <;> simp [statusAt, updFun, Ne.symm hji, ho]
    | driver =>
      simp only [applyEvent]
      unfold cancellationDriverApply
      cases hdj : s.drivers j with
      | none => simp [exceptState, statusAt, ho]
      | some d =>
        dsimp only
        split
        · rw [statusAt, cancelDriverFold_orders]
          simp [ho]
        · rw [statusAt, cancelDriverFold_orders]
          simp [ho]
  | deliveryComplete t j did dt dk tm =>
    have hji : j ≠ i := by
      intro he
      exact h (Or.inr (Or.inl ⟨t, did, dt, dk, tm, by rw [he]⟩))
    simp only [applyEvent]
    unfold deliveryCompleteApply
    cases hoj : s.orders j with
    | none => simp [exceptState, statusAt, ho]
    | some oj =>
      dsimp only
      cases hdd : s.drivers did with
      | none =>
        simp [exceptState, statusAt, updFun, Ne.symm hji, ho]
      | some dd =>
        simp only [exceptState, statusAt]
        split <;> split <;> split <;> simp [updFun, Ne.symm hji, ho]
  | orderPickup t j did pt =>
    simp only [applyEvent, exceptState]
    unfold orderPickupApply
    cases hoj : s.orders j with
    | none => simp [statusAt, ho]
    | some oj =>
      dsimp only
      by_cases hji : j = i
      · subst hji
        have hoo : oj = o := by
          rw [ho] at hoj
          exact (Option.some.inj hoj).symm
        cases hdd : s.drivers did with
        | none => simp [statusAt, updFun, ho, hoo]
        | some dd => simp [statusAt, updFun, ho, hoo]
      · cases hdd : s.drivers did with
        | none => simp [statusAt, updFun, Ne.symm hji, ho]
        | some dd => simp [statusAt, updFun, Ne.symm hji, ho]

/-- Witness for `C3_terminal_stable`: an ORDER_PICKUP event for a
different order leaves the DELIVERED order untouched. -/
theorem C3_terminal_stable_witness :
    exDeliveredState.orders 0 = some exOrderDelivered ∧
      exOrderDelivered.status.isTerminal = true ∧
      statusAt (exceptState (applyEvent distZero
        (.orderPickup 480 5 7 480) exDeliveredState)) 0 = some OrderStatus.delivered :=
  have hno : ¬ eventTouchesOrderStatus (.orderPickup 480 5 7 480) exDeliveredState 0 := by
    rintro (⟨t, hc⟩ | ⟨t, did, dt, dk, tm, hc⟩ | ⟨t, data, hc⟩ | ⟨t, n, hc, _⟩) <;>
      exact Event.noConfusion hc
  ⟨rfl, rfl,
    C3_terminal_stable distZero exDeliveredState (.orderPickup 480 5 7 480) 0
      exOrderDelivered rfl rfl hno⟩

/-! ### C2: the capacity invariant -/

/-- Helper: membership after a `set.add`. -/
theorem mem_setInsert (l : List Nat) (a j : Nat) (h : j ∈ setInsert l a) :
    j ∈ l ∨ j = a := by
  unfold setInsert at h
  split at h
  · exact Or.inl h
  · rcases List.mem_append.mp h with h1 | h1
    · exact Or.inl h1
    · exact Or.inr (List.mem_singleton.mp h1)

/-- Helper: `set.add` keeps the list duplicate-free. -/
theorem setInsert_nodup (l : List Nat) (a : Nat) (h : l.Nodup) :
    (setInsert l a).Nodup := by
  unfold setInsert
  split
  · exact h
  · rename_i hmem
    rw [List.nodup_append]
    refine ⟨h, List.nodup_singleton a, ?_⟩
    intro x hx hx1
    rw [List.mem_singleton.mp hx1] at hx
    exact hmem hx

/-- Helper: `SimInv` only reads the drivers map and the available pool. -/
theorem simInv_congr (s' s : SimState) (hd : s'.drivers = s.drivers)
    (ha : s'.available_drivers = s.available_drivers) (h : SimInv s) : SimInv s' := by
  constructor
  · rw [ha]; exact h.1
  · intro i d hdi
    rw [hd] at hdi
    rcases h.2 i d hdi with ⟨g1, g2, g3⟩
    exact ⟨g1, g2, fun hm => g3 (ha ▸ hm)⟩

/-- Helper: replacing one driver with a version whose order list is no
longer and whose `max_orders` is unchanged preserves `SimInv`. -/
theorem simInv_driverUpd (s : SimState) (did : Nat) (d : Driver)
    (hd : s.drivers did = some d) (d2 : Driver)
    (hlen : d2.current_orders.length ≤ d.current_orders.length)
    (hmax : d2.max_orders = d.max_orders) (h : SimInv s) :
    SimInv { s with drivers := setFun s.drivers did d2 } := by
  obtain ⟨hnodup, hinv⟩ := h
  obtain ⟨g1, g2, g3⟩ := hinv did d hd
  constructor
  · exact hnodup
  · intro i di hdi
    simp only [setFun] at hdi
    by_cases hij : i = did
    · subst hij
      rw [if_pos rfl] at hdi
      injection hdi with hdi
      subst hdi
      refine ⟨?_, ?_, fun hm => ?_⟩
      · rw [hmax]; exact hlen.trans g1
      · rw [hmax]; exact g2
      · rw [hmax]; exact Nat.lt_of_le_of_lt hlen (g3 hm)
    · rw [if_neg hij] at hdi
      exact hinv i di hdi

/-- Helper: making a driver with strict headroom available preserves
`SimInv`. -/
theorem simInv_availInsert (s : SimState) (did : Nat) (d2 : Driver)
    (hd : s.drivers did = some d2)
    (hlt : d2.current_orders.length < d2.max_orders) (h : SimInv s) :
    SimInv { s with available_drivers := setInsert s.available_drivers did } := by
  obtain ⟨hnodup, hinv⟩ := h
  constructor
  · exact setInsert_nodup _ _ hnodup
  · intro i di hdi
    obtain ⟨g1, g2, g3⟩ := hinv i di hdi
    refine ⟨g1, g2, fun hm => ?_⟩
    rcases mem_setInsert _ _ _ hm with hm1 | hm1
    · exact g3 hm1
    · subst hm1
      rw [hd] at hdi
      injection hdi with hdi
      rw [← hdi]
      exact hlt

/-- Helper: dropping a driver from the available pool preserves `SimInv`. -/
theorem simInv_availErase (s : SimState) (j : Nat) (h : SimInv s) :
    SimInv { s with available_drivers := s.available_drivers.erase j } := by
  constructor
  · exact h.1.erase _
  · intro i d hdi
    rcases h.2 i d hdi with ⟨g1, g2, g3⟩
    exact ⟨g1, g2, fun hm => g3 (List.mem_of_mem_erase hm)⟩

/-- Helper: processing one assignment preserves `SimInv` — the driver is
only grown while it is in the available pool (so it had strict headroom),
and it is removed from the pool the moment it reaches `max_orders`. -/
theorem processAssignment_inv (dist : Dist) (s : SimState) (o' : Order)
    (d' : Driver) (h : SimInv s) :
    SimInv (exceptState (processAssignment dist s o' d')) := by
  unfold processAssignment
  by_cases hg : o'.order_id ∈ s.unassigned_orders ∧ d'.driver_id ∈ s.available_drivers
  · rw [if_pos hg]
    cases ho : s.orders o'.order_id with
    | none => cases hd : s.drivers d'.driver_id <;> exact h
    | some oo =>
      cases hd : s.drivers d'.driver_id with
      | none => exact h
      | some dd =>
        dsimp only
        obtain ⟨hnodup, hinv⟩ := h
        obtain ⟨g1, g2, g3⟩ := hinv d'.driver_id dd hd
        have hlt : dd.current_orders.length < dd.max_orders := g3 hg.2
        by_cases hfull : (dd.current_orders ++ [o'.order_id]).length ≥ dd.max_orders
        · rw [if_pos hfull]
          split
          all_goals
            simp only [exceptState]
            constructor
            · exact hnodup.erase _
            · intro i di hdi
              simp only [setFun] at hdi
              by_cases hij : i = d'.driver_id
              · subst hij
                rw [if_pos rfl] at hdi
                injection hdi with hdi
                subst hdi
                refine ⟨?_, g2, fun hmemi => ?_⟩
                · simp only [List.length_append, List.length_singleton]
                  omega
                · exact ((hnodup.mem_erase_iff.mp hmemi).1 rfl).elim
              · rw [if_neg hij] at hdi
                rcases hinv i di hdi with ⟨k1, k2, k3⟩
                exact ⟨k1, k2, fun hmemi => k3 (List.mem_of_mem_erase hmemi)⟩
        · rw [if_neg hfull]
          split
          all_goals
            simp only [exceptState]
            constructor
            · exact hnodup
            · intro i di hdi
              simp only [setFun] at hdi
              by_cases hij : i = d'.driver_id
              · subst hij
                rw [if_pos rfl] at hdi
                injection hdi with hdi
                subst hdi
                simp only [List.length_append, List.length_singleton] at hfull ⊢
                refine ⟨by omega, g2, fun _ => by omega⟩
              · rw [if_neg hij] at hdi
                exact hinv i di hdi
  · rw [if_neg hg]
    exact h

/-- Helper: the assignment-processing fold preserves `SimInv`. -/
theorem assignFold_inv (dist : Dist) :
    ∀ (ps : List (Order × Driver)) (s : SimState), SimInv s →
      SimInv (exceptState (ps.foldlM (fun st p => processAssignment dist st p.1 p.2) s)) := by
  intro ps
  induction ps with
  | nil => intro s h; exact h
  | cons p ps ih =>
    intro s h
    rw [List.foldlM_cons]
    have hstep := processAssignment_inv dist s p.1 p.2 h
    cases hs : processAssignment dist s p.1 p.2 with
    | error s' =>
      rw [hs] at hstep
      rw [except_bind_error0]
      exact hstep
    | ok s' =>
      rw [hs] at hstep
      simp only [exceptState] at hstep
      rw [except_bind_ok0]
      exact ih s' hstep

/-- Helper: `trigger_matching` preserves `SimInv` whatever assignment list
the matcher produced. -/
theorem trigger_matching_inv (dist : Dist) (s : SimState) (h : SimInv s) :
    SimInv (exceptState (trigger_matching dist s)) := by
  unfold trigger_matching
  by_cases hg : s.unassigned_orders = [] ∨ s.available_drivers = []
  · simp only [hg, if_true]
    exact h
  · simp only [hg, if_false]
    rcases lookupMany_cases s.orders s.unassigned_orders s with ⟨ao, hao⟩ | hao
    · rw [hao, except_bind_ok]
      rcases lookupMany_cases s.drivers s.available_drivers s with ⟨ad, had⟩ | had
      · rw [had, except_bind_ok]
        exact assignFold_inv dist _ s h
      · rw [had, except_bind_error]
        exact h
    · rw [hao, except_bind_error]
      exact h

/-- Helper: a guarded matching round preserves `SimInv`. -/
theorem triggerIf_inv (dist : Dist) (s1 : SimState) (c : Prop) [Decidable c]
    (h : SimInv s1) :
    SimInv (exceptState (if c then trigger_matching dist s1 else pure s1)) := by
  split
  · exact trigger_matching_inv dist s1 h
  · exact h

/-- Helper: one expiry step preserves `SimInv` (it never touches drivers
or the available pool). -/
theorem expireStep_inv (t : ℚ) (s : SimState) (oid : Nat) (h : SimInv s) :
    SimInv (exceptState (expireStep t s oid)) := by
  unfold expireStep
  cases ho : s.orders oid with
  | none => exact h
  | some o =>
    dsimp only
    split
    · exact simInv_congr _ s rfl rfl h
    · exact h

/-- Helper: the expiry fold preserves `SimInv`. -/
theorem expireFold_inv (t : ℚ) :
    ∀ (lst : List Nat) (s : SimState), SimInv s →
      SimInv (exceptState (lst.foldlM (expireStep t) s)) := by
  intro lst
  induction lst with
  | nil => intro s h; exact h
  | cons oid lst ih =>
    intro s h
    rw [List.foldlM_cons]
    have hstep := expireStep_inv t s oid h
    cases hs : expireStep t s oid with
    | error s' =>
      rw [hs] at hstep
      rw [except_bind_error0]
      exact hstep
    | ok s' =>
      rw [hs] at hstep
      simp only [exceptState] at hstep
      rw [except_bind_ok0]
      exact ih s' hstep

/-- Helper: a TICK preserves `SimInv`. -/
theorem tickApply_inv (dist : Dist) (t : ℚ) (s : SimState) (h : SimInv s) :
    SimInv (exceptState (tickApply dist t s)) := by
  unfold tickApply
  refine exceptState_bind _ _ SimInv ?_ ?_
  · exact expireFold_inv t s.unassigned_orders s h
  · intro s1 hm
    have h1 := expireFold_inv t s.unassigned_orders s h
    rw [hm] at h1
    simp only [exceptState] at h1
    refine exceptState_bind _ _ SimInv ?_ ?_
    · exact triggerIf_inv dist s1 _ h1
    · intro s2 hm2
      have h2 : SimInv s2 := by
        have := triggerIf_inv dist s1
          (s1.unassigned_orders ≠ [] ∧ s1.available_drivers ≠ []) h1
        rw [hm2] at this
        simpa only [exceptState] using this
      exact triggerIf_inv dist s2 _ h2

/-- Helper: an ORDER_ARRIVAL preserves `SimInv` (it never touches drivers
or the available pool). -/
theorem orderArrival_inv (s : SimState) (t : ℚ) (oid : Nat) (data : OrderData)
    (h : SimInv s) : SimInv (orderArrivalApply s t oid data) :=
  simInv_congr _ s rfl rfl h

/-- Helper: a DRIVER_ARRIVAL preserves `SimInv`: the new driver has no
orders and `max_orders = 3`. -/
theorem driverArrival_inv (s : SimState) (t : ℚ) (did : Nat) (data : DriverData)
    (h : SimInv s) : SimInv (driverArrivalApply s t did data) := by
  constructor
  · exact setInsert_nodup _ _ h.1
  · intro i d hdi
    simp only [driverArrivalApply, setFun] at hdi
    by_cases hij : i = did
    · subst hij
      rw [if_pos rfl] at hdi
      injection hdi with hdi
      subst hdi
      exact ⟨by simp [driverFromData], by simp [driverFromData],
        fun _ => by simp [driverFromData]⟩
    · rw [if_neg hij] at hdi
      rcases h.2 i d hdi with ⟨g1, g2, g3⟩
      refine ⟨g1, g2, fun hm => ?_⟩
      rcases mem_setInsert _ _ _ hm with hm1 | hm1
      · exact g3 hm1
      · exact absurd hm1 hij

/-- Helper: an order CANCELLATION preserves `SimInv` (it never touches
drivers or the available pool). -/
theorem cancellationOrder_inv (s : SimState) (i : Nat) (h : SimInv s) :
    SimInv (cancellationOrderApply s i) := by
  unfold cancellationOrderApply
  cases ho : s.orders i with
  | none => exact h
  | some o =>
    dsimp only
    split <;> split <;> exact simInv_congr _ s rfl rfl h

/-- Helper: one step of the driver-cancellation order loop preserves
`SimInv`. -/
theorem cancelDriverOrderStep_inv (s : SimState) (oid : Nat) (h : SimInv s) :
    SimInv (exceptState (cancelDriverOrderStep s oid)) := by
  unfold cancelDriverOrderStep
  cases ho : s.orders oid with
  | none => exact h
  | some o =>
    dsimp only
    split
    · exact simInv_congr _ s rfl rfl h
    · exact simInv_congr _ s rfl rfl h

/-- Helper: the driver-cancellation order loop preserves `SimInv`. -/
theorem cancelDriverFold_inv :
    ∀ (lst : List Nat) (s : SimState), SimInv s →
      SimInv (exceptState (lst.foldlM cancelDriverOrderStep s)) := by
  intro lst
  induction lst with
  | nil => intro s h; exact h
  | cons oid lst ih =>
    intro s h
    rw [List.foldlM_cons]
    have hstep := cancelDriverOrderStep_inv s oid h
    cases hs : cancelDriverOrderStep s oid with
    | error s' =>
      rw [hs] at hstep
      rw [except_bind_error0]
      exact hstep
    | ok s' =>
      rw [hs] at hstep
      simp only [exceptState] at hstep
      rw [except_bind_ok0]
      exact ih s' hstep

/-- Helper: a driver CANCELLATION preserves `SimInv` (the available pool
only shrinks; `current_orders` is never cleared but also never grown). -/
theorem cancellationDriver_inv (s : SimState) (i : Nat) (h : SimInv s) :
    SimInv (exceptState (cancellationDriverApply s i)) := by
  unfold cancellationDriverApply
  cases hd : s.drivers i with
  | none => exact h
  | some d =>
    dsimp only
    split
    · exact cancelDriverFold_inv d.current_orders _ (simInv_availErase s i h)
    · exact cancelDriverFold_inv d.current_orders _ h

/-- Helper: a DELIVERY_COMPLETE preserves `SimInv`: the driver's order
list only shrinks, and the driver is only re-made available when its list
is empty (and `max_orders ≥ 1`). -/
theorem deliveryComplete_inv (s : SimState) (oid did : Nat)
    (dt dk tm : ℚ) (h : SimInv s) :
    SimInv (exceptState (deliveryCompleteApply s oid did dt dk tm)) := by
  unfold deliveryCompleteApply
  cases ho : s.orders oid with
  | none => exact h
  | some o =>
    dsimp only
    cases hd : s.drivers did with
    | none =>
      exact simInv_congr _ s rfl rfl h
    | some d =>
      dsimp only
      obtain ⟨g1, g2, g3⟩ := h.2 did d hd
      have hA : SimInv { s with orders := updFun s.orders oid (fun o =>
          { o with status := .delivered, delivered_at := some dt }) } :=
        simInv_congr _ s rfl rfl h
      by_cases hmem : oid ∈ d.current_orders
      · rw [if_pos hmem]
        have hB : SimInv { s with
            orders := updFun s.orders oid (fun o =>
              { o with status := .delivered, delivered_at := some dt }),
            drivers := setFun s.drivers did
              { d with current_orders := d.current_orders.erase oid,
                       total_earnings := d.total_earnings +
                         calculate_driver_wage dk tm s.wage_model d.rating } } :=
          simInv_driverUpd _ did d hd _ (List.length_erase_le _ _) rfl hA
        by_cases hempty : d.current_orders.erase oid = []
        · rw [if_pos hempty]
          have hC := simInv_availInsert _ did
            { d with current_orders := d.current_orders.erase oid,
                     total_earnings := d.total_earnings +
                       calculate_driver_wage dk tm s.wage_model d.rating }
            (by simp [setFun]) (by simp [hempty]; omega) hB
          split <;> exact simInv_congr _ _ rfl rfl hC
        · rw [if_neg hempty]
          split <;> exact simInv_congr _ _ rfl rfl hB
      · rw [if_neg hmem]
        have hB : SimInv { s with
            orders := updFun s.orders oid (fun o =>
              { o with status := .delivered, delivered_at := some dt }),
            drivers := setFun s.drivers did d } :=
          simInv_driverUpd _ did d hd _ le_rfl rfl hA
        by_cases hempty : d.current_orders = []
        · rw [if_pos hempty]
          have hC := simInv_availInsert _ did d (by simp [setFun])
            (by rw [hempty]; simpa using g2) hB
          split <;> exact simInv_congr _ _ rfl rfl hC
        · rw [if_neg hempty]
          split <;> exact simInv_congr _ _ rfl rfl hB

/-- Helper: an ORDER_PICKUP preserves `SimInv` (only the driver's location
changes). -/
theorem orderPickup_inv (s : SimState) (oid did : Nat) (pt : ℚ) (h : SimInv s) :
    SimInv (orderPickupApply s oid did pt) := by
  unfold orderPickupApply
  cases ho : s.orders oid with
  | none => exact h
  | some o =>
    dsimp only
    have hA : SimInv { s with orders := updFun s.orders oid (fun oo =>
        { oo with pickup_time := some pt }) } :=
      simInv_congr _ s rfl rfl h
    cases hd : s.drivers did with
    | none => exact hA
    | some d =>
      dsimp only
      constructor
      · exact hA.1
      · intro i di hdi
        simp only [updFun] at hdi
        by_cases hij : i = did
        · subst hij
          rw [if_pos rfl] at hdi
          rw [hd] at hdi
          simp only [Option.map_some'] at hdi
          injection hdi with hdi
          subst hdi
          exact h.2 _ d hd
        · rw [if_neg hij] at hdi
          exact hA.2 i di hdi

/-- Helper: every event application preserves `SimInv`, exception or
not. -/
theorem applyEvent_inv (dist : Dist) (e : Event) (s : SimState) (h : SimInv s) :
    SimInv (exceptState (applyEvent dist e s)) := by
  cases e with
  | orderArrival t oid data => exact orderArrival_inv s t oid data h
  | driverArrival t did data => exact driverArrival_inv s t did data h
  | tick t n => exact tickApply_inv dist t s h
  | cancellation t i et =>
    cases et with
    | order => exact cancellationOrder_inv s i h
    | driver => exact cancellationDriver_inv s i h
  | deliveryComplete t oid did dt dk tm => exact deliveryComplete_inv s oid did dt dk tm h
  | orderPickup t oid did pt => exact orderPickup_inv s oid did pt h

/-- Helper: `SimInv` holds along any run from an `InitOk` state. -/
theorem runEvents_inv (dist : Dist) :
    ∀ (evs : List Event) (s : SimState), SimInv s →
      SimInv (runEvents dist s evs) := by
  intro evs
  induction evs with
  | nil => intro s h; exact h
  | cons e evs ih =>
    intro s h
    unfold runEvents
    have hstep := applyEvent_inv dist e { s with current_time := e.timestamp }
      (simInv_congr _ s rfl rfl h)
    cases hs : applyEvent dist e { s with current_time := e.timestamp } with
    | error s2 =>
      rw [hs] at hstep
      exact hstep
    | ok s2 =>
      rw [hs] at hstep
      simp only [exceptState] at hstep
      exact ih s2 hstep

/-- C2: the capacity invariant.  From any state `setup_simulation` can
produce, after processing any prefix of any event queue (a run stops at
the first uncaught Python exception, whose partially-mutated state is the
last state produced), every driver satisfies
`len(driver.current_orders) ≤ driver.max_orders` — including through the
matching rounds run inside TICK events. -/
theorem C2_capacity_invariant (dist : Dist) (s0 : SimState) (evs : List Event)
    (h : InitOk s0) : capacityInv (runEvents dist s0 evs) := by
  have hinv : SimInv s0 := by
    constructor
    · exact h.1
    · intro i d hdi
      rcases h.2 i d hdi with ⟨he, hm⟩
      refine ⟨?_, hm, fun _ => ?_⟩
      · rw [he]; exact Nat.zero_le _
      · rw [he]; simpa using hm
  intro i d hdi
  exact ((runEvents_inv dist evs s0 hinv).2 i d hdi).1

/-- Witness for `C2_capacity_invariant`: a one-order one-driver setup
state, run through a TICK (which matches the order) followed by the
scheduled DELIVERY_COMPLETE. -/
theorem C2_capacity_invariant_witness :
    InitOk exInitState ∧
      capacityInv (runEvents distZero exInitState
        [.tick 480 0, .deliveryComplete 485 0 0 485 0 0]) :=
  have hinit : InitOk exInitState := by
    constructor
    · simp [exInitState]
    · intro i d hdi
      simp only [exInitState] at hdi
      by_cases hi : i = 0
      · subst hi
        simp only [if_pos rfl] at hdi
        injection hdi with hdi
        subst hdi
        exact ⟨rfl, by simp [exDriver]⟩
      · rw [if_neg hi] at hdi
        cases hdi
  ⟨hinit, C2_capacity_invariant distZero exInitState
    [.tick 480 0, .deliveryComplete 485 0 0 485 0 0] hinit⟩

end CargoHitch
